import Mathlib

/-!
The rollback command of shipctl, `cmd/rollback.go`.

`rollbackCmd.execute` is a straight line of calls to collaborators (the
session, the history manager, the ECS helpers of `lib/ecs`, the logger), each
followed by an early return on error.  The collaborators are not part of the
file, so they are the fields of a `World`: every one is a function on an
abstract world state `σ`, and the theorems quantify over all worlds.  The
command is embedded as a function from a world state to an `Outcome`: how the
call ended (the Go `error` it returned, or a panic), the ordered trace of the
calls it made (each with what came back), and the world state it leaves.
-/

namespace Shipctl

/-- A Go `error` value as the command returns it.  `errorsNew` is a value
built by `errors.New` inside `rollback.go`; `collaborator` is an error value
handed back by a callee and returned as it is (`return err`). -/
inductive Error where
  | errorsNew (text : String)
  | collaborator (text : String)
  deriving DecidableEq

/-- How a call of `execute` or of the `RunE` closure ends: it returns an
`error` (`none` is `nil`), or it panics on the nil pointer dereference of
rollback.go line 99. -/
inductive Result where
  | returned (err : Option Error)
  | panic
  deriving DecidableEq

/-- One entry of the history log (`Revision` is a Go `int`; no arithmetic is
done on it here, it is only copied and printed with `%d`). -/
structure State where
  Revision : Int
  Message : String
  deriving DecidableEq

/-- Value of `session.NewSession()`. -/
structure Session where
  id : String
  deriving DecidableEq

/-- Value of `ecs.New(sess, &aws.Config{Region: aws.String(region)})`. -/
structure Client where
  sess : Session
  Region : String
  deriving DecidableEq

/-- Value of `NewHistoryManager(backend, cluster, serviceName)`. -/
structure HistoryManager where
  id : String
  deriving DecidableEq

/-- Value of `log.NewLogger(cluster, serviceName, slackWebhookUrl, out)`. -/
structure Logger where
  cluster : String
  serviceName : String
  slackWebhookUrl : String
  deriving DecidableEq

/-- One message written through the logger: `Log(msg)` or
`Slack(color, msg)`. -/
inductive Message where
  | log (msg : String)
  | slack (color msg : String)
  deriving DecidableEq

/-- The fields of `ecs.Service` the command reads: the current task-definition
reference, a `*string` that may be nil (`none`), and the list of deployments
(only its length is used). -/
structure Service where
  TaskDefinition : Option String
  Deployments : List String
  deriving DecidableEq

/-- An `ecs.TaskDefinition` document; the command only passes it on. -/
structure TaskDefinition where
  TaskDefinitionArn : String
  deriving DecidableEq

/-- Result of a call that returns `(value, error)`. -/
inductive Reply (α : Type) where
  | ok (value : α)
  | err (text : String)
  deriving DecidableEq

/-- The receiver of `execute`: the four flag values. -/
structure rollbackCmd where
  cluster : String
  serviceName : String
  backend : String
  slackWebhookUrl : String
  deriving DecidableEq

/-- The collaborators of the command: `getAWSRegion` and `NewHistoryManager`
of package `cmd`, the two methods of the history manager, `session.NewSession`
and the helpers of `lib/ecs`.  Each call takes the world state and returns its
result with the next world state.  `getAWSRegion` only reads the environment;
`SpecifyRevision` takes no client and is a function of its arguments.  For a
call that returns only an `error`, `none` is Go's `nil`.  `WaitUpdateService`
is handed the logger: it returns the messages it wrote through it, in order,
and its `error`. -/
structure World (σ : Type) where
  getAWSRegion : σ → String
  NewSession : σ → Reply Session × σ
  NewHistoryManager : String → String → String → σ → Reply HistoryManager × σ
  Pull : HistoryManager → σ → Reply (List State) × σ
  PushState : HistoryManager → Int → String → σ → Option String × σ
  DescribeService : Client → String → String → σ → Reply Service × σ
  SpecifyRevision : Int → String → Reply String
  DescribeTaskDefinition : Client → String → σ → Reply TaskDefinition × σ
  UpdateService : Client → Service → TaskDefinition → σ → Option String × σ
  WaitUpdateService : Client → String → String → Logger → σ →
    (List Message × Option String) × σ

/-- One call made by the command, with its arguments and what came back.
`Log` and `Slack` are the calls of the two methods of the logger made in
`rollback.go`; they return nothing.  The event of `WaitUpdateService` carries
the messages that call wrote through the logger it was handed. -/
inductive Event where
  | NewSession (res : Reply Session)
  | NewHistoryManager (backend cluster serviceName : String) (res : Reply HistoryManager)
  | Pull (hm : HistoryManager) (res : Reply (List State))
  | DescribeService (client : Client) (cluster serviceName : String) (res : Reply Service)
  | SpecifyRevision (revision : Int) (arn : String) (res : Reply String)
  | DescribeTaskDefinition (client : Client) (arn : String) (res : Reply TaskDefinition)
  | Log (msg : String)
  | Slack (color msg : String)
  | UpdateService (client : Client) (service : Service) (taskDef : TaskDefinition)
      (res : Option String)
  | WaitUpdateService (client : Client) (cluster serviceName : String) (l : Logger)
      (written : List Message) (res : Option String)
  | PushState (hm : HistoryManager) (revision : Int) (message : String) (res : Option String)
  deriving DecidableEq

/-- What one run leaves behind: how it ended, the calls made in order, and the
world state after the last call. -/
structure Outcome (σ : Type) where
  result : Result
  trace : List Event
  world : σ

/-- The verb `%d` of `fmt.Sprintf` on an `int`. -/
def fmtD (n : Int) : String := toString n

/-- The constructor `ecs.New(sess, &aws.Config{Region: aws.String(region)})`. -/
def ecsNew (sess : Session) (region : String) : Client := ⟨sess, region⟩

/-- The constructor `log.NewLogger(cluster, serviceName, slackWebhookUrl, out)`. -/
def NewLogger (cluster serviceName slackWebhookUrl : String) : Logger :=
  ⟨cluster, serviceName, slackWebhookUrl⟩

/-- Body of `rollbackCmd.execute` (rollback.go lines 49-141). -/
def execute {σ : Type} (W : World σ) (f : rollbackCmd) (l : Logger) (s : σ) : Outcome σ :=
  if f.cluster = "" then
    ⟨.returned (some (.errorsNew "--cluster is required")), [], s⟩
  else if f.serviceName = "" then
    ⟨.returned (some (.errorsNew "--service-name is required")), [], s⟩
  else
  let region := W.getAWSRegion s
  if region = "" then
    ⟨.returned (some (.errorsNew
      "AWS region is not found. please set a AWS_DEFAULT_REGION or AWS_REGION")), [], s⟩
  else
  match W.NewSession s with
  | (.err e, s1) => ⟨.returned (some (.collaborator e)), [.NewSession (.err e)], s1⟩
  | (.ok sess, s1) =>
  let t1 := [Event.NewSession (.ok sess)]
  let client := ecsNew sess region
  match W.NewHistoryManager f.backend f.cluster f.serviceName s1 with
  | (.err e, s2) =>
    ⟨.returned (some (.collaborator e)),
      t1 ++ [.NewHistoryManager f.backend f.cluster f.serviceName (.err e)], s2⟩
  | (.ok historyManager, s2) =>
  let t2 := t1 ++ [.NewHistoryManager f.backend f.cluster f.serviceName (.ok historyManager)]
  match W.Pull historyManager s2 with
  | (.err e, s3) =>
    ⟨.returned (some (.collaborator e)), t2 ++ [.Pull historyManager (.err e)], s3⟩
  | (.ok states, s3) =>
  let t3 := t2 ++ [.Pull historyManager (.ok states)]
  if h : states.length < 2 then
    ⟨.returned (some (.errorsNew "can not found a prev state")), t3, s3⟩
  else
  let prevState := states.get ⟨states.length - 2, by omega⟩
  let state := states.get ⟨states.length - 1, by omega⟩
  match W.DescribeService client f.cluster f.serviceName s3 with
  | (.err e, s4) =>
    ⟨.returned (some (.collaborator e)),
      t3 ++ [.DescribeService client f.cluster f.serviceName (.err e)], s4⟩
  | (.ok service, s4) =>
  let t4 := t3 ++ [.DescribeService client f.cluster f.serviceName (.ok service)]
  if service.Deployments.length > 1 then
    ⟨.returned (some (.errorsNew (f.serviceName ++ " is currently deploying"))), t4, s4⟩
  else
  match service.TaskDefinition with
  | none => ⟨.panic, t4, s4⟩
  | some taskDefArn0 =>
  match W.SpecifyRevision prevState.Revision taskDefArn0 with
  | .err e =>
    ⟨.returned (some (.collaborator e)),
      t4 ++ [.SpecifyRevision prevState.Revision taskDefArn0 (.err e)], s4⟩
  | .ok taskDefArn =>
  let t5 := t4 ++ [.SpecifyRevision prevState.Revision taskDefArn0 (.ok taskDefArn)]
  match W.DescribeTaskDefinition client taskDefArn s4 with
  | (.err e, s5) =>
    ⟨.returned (some (.collaborator e)),
      t5 ++ [.DescribeTaskDefinition client taskDefArn (.err e)], s5⟩
  | (.ok taskDef, s5) =>
  let msg := "rollback: revision " ++ fmtD state.Revision ++ " -> "
    ++ fmtD prevState.Revision ++ "\n"
  let t6 := t5 ++ [.DescribeTaskDefinition client taskDefArn (.ok taskDef),
    .Log msg, .Slack "normal" msg]
  match W.UpdateService client service taskDef s5 with
  | (some e, s6) =>
    ⟨.returned (some (.collaborator e)),
      t6 ++ [.UpdateService client service taskDef (some e)], s6⟩
  | (none, s6) =>
  let t7 := t6 ++ [.UpdateService client service taskDef none, .Log "service updating\n"]
  match W.WaitUpdateService client f.cluster f.serviceName l s6 with
  | ((written, some e), s7) =>
    ⟨.returned (some (.collaborator e)),
      t7 ++ [.WaitUpdateService client f.cluster f.serviceName l written (some e)], s7⟩
  | ((written, none), s7) =>
  let t8 := t7 ++ [.WaitUpdateService client f.cluster f.serviceName l written none]
  let pushMsg := "rollback: " ++ fmtD state.Revision ++ " -> " ++ fmtD prevState.Revision
  match W.PushState historyManager prevState.Revision pushMsg s7 with
  | (some e, s8) =>
    ⟨.returned (some (.collaborator e)),
      t8 ++ [.PushState historyManager prevState.Revision pushMsg (some e)], s8⟩
  | (none, s8) =>
  ⟨.returned none, t8 ++ [.PushState historyManager prevState.Revision pushMsg none,
    .Log "successfully updated\n", .Slack "good" "successfully updated\n"], s8⟩

/-- The text built in `RunE` on failure (rollback.go line 33). -/
def failMsg (f : rollbackCmd) : String :=
  "failed to deploy. cluster: " ++ f.cluster ++ ", serviceName: " ++ f.serviceName ++ "\n"

/-- The `RunE` closure of `NewRollbackCommand` (rollback.go lines 29-39):
build the logger, run `execute`, and on error log and post the failure text
before returning the same error.  A panic of `execute` is not recovered. -/
def RunE {σ : Type} (W : World σ) (f : rollbackCmd) (s : σ) : Outcome σ :=
  let l := NewLogger f.cluster f.serviceName f.slackWebhookUrl
  let o := execute W f l s
  match o.result with
  | .returned (some err) =>
    ⟨.returned (some err), o.trace ++ [.Log (failMsg f), .Slack "danger" (failMsg f)], o.world⟩
  | .returned none => ⟨.returned none, o.trace, o.world⟩
  | .panic => ⟨.panic, o.trace, o.world⟩
/-- Text of the start notification (rollback.go line 112). -/
def startMsg (cur prev : State) : String :=
  "rollback: revision " ++ fmtD cur.Revision ++ " -> " ++ fmtD prev.Revision ++ "\n"

/-- Text recorded in the history (rollback.go line 130). -/
def pushMsg (cur prev : State) : String :=
  "rollback: " ++ fmtD cur.Revision ++ " -> " ++ fmtD prev.Revision

/-- The run got as far as a history of at least two entries: the three input
checks passed, and the session, the history manager and `Pull` succeeded. -/
def Loaded {σ : Type} (W : World σ) (f : rollbackCmd) (s : σ) (sess : Session)
    (hm : HistoryManager) (init : List State) (prev cur : State) (s1 s2 s3 : σ) : Prop :=
  f.cluster ≠ "" ∧ f.serviceName ≠ "" ∧ W.getAWSRegion s ≠ "" ∧
  W.NewSession s = (.ok sess, s1) ∧
  W.NewHistoryManager f.backend f.cluster f.serviceName s1 = (.ok hm, s2) ∧
  W.Pull hm s2 = (.ok (init ++ [prev, cur]), s3)

/-- Calls made by a run that loaded its history. -/
def trLoaded (f : rollbackCmd) (sess : Session) (hm : HistoryManager) (states : List State) :
    List Event :=
  [.NewSession (.ok sess), .NewHistoryManager f.backend f.cluster f.serviceName (.ok hm),
    .Pull hm (.ok states)]

/-- Calls made by a run up to and including the start notification. -/
def trStarted (f : rollbackCmd) (sess : Session) (region : String) (hm : HistoryManager)
    (init : List State) (prev cur : State) (svc : Service) (ref arn : String)
    (td : TaskDefinition) : List Event :=
  trLoaded f sess hm (init ++ [prev, cur]) ++
  [.DescribeService (ecsNew sess region) f.cluster f.serviceName (.ok svc),
    .SpecifyRevision prev.Revision ref (.ok arn),
    .DescribeTaskDefinition (ecsNew sess region) arn (.ok td),
    .Log (startMsg cur prev), .Slack "normal" (startMsg cur prev)]

/-- The run got as far as the start notification: on top of `Loaded`, the
service was described with at most one deployment and a reference `ref`, the
reference was resolved and the task definition read. -/
def Started {σ : Type} (W : World σ) (f : rollbackCmd) (s : σ) (sess : Session)
    (hm : HistoryManager) (init : List State) (prev cur : State) (svc : Service)
    (ref arn : String) (td : TaskDefinition) (s1 s2 s3 s4 s5 : σ) : Prop :=
  Loaded W f s sess hm init prev cur s1 s2 s3 ∧
  W.DescribeService (ecsNew sess (W.getAWSRegion s)) f.cluster f.serviceName s3
    = (.ok svc, s4) ∧
  ¬ svc.Deployments.length > 1 ∧
  svc.TaskDefinition = some ref ∧
  W.SpecifyRevision prev.Revision ref = .ok arn ∧
  W.DescribeTaskDefinition (ecsNew sess (W.getAWSRegion s)) arn s4 = (.ok td, s5)

/-- The exits of `execute`, one constructor for each `return`, with what the
collaborators answered on the way there. -/
inductive Steps {σ : Type} (W : World σ) (f : rollbackCmd) (l : Logger) (s : σ) :
    Outcome σ → Prop
  | noCluster (hc : f.cluster = "") :
      Steps W f l s ⟨.returned (some (.errorsNew "--cluster is required")), [], s⟩
  | noService (hc : f.cluster ≠ "") (hs : f.serviceName = "") :
      Steps W f l s ⟨.returned (some (.errorsNew "--service-name is required")), [], s⟩
  | noRegion (hc : f.cluster ≠ "") (hs : f.serviceName ≠ "") (hr : W.getAWSRegion s = "") :
      Steps W f l s ⟨.returned (some (.errorsNew
        "AWS region is not found. please set a AWS_DEFAULT_REGION or AWS_REGION")), [], s⟩
  | sessionErr (e : String) (s1 : σ) (hc : f.cluster ≠ "") (hs : f.serviceName ≠ "")
      (hr : W.getAWSRegion s ≠ "") (h1 : W.NewSession s = (.err e, s1)) :
      Steps W f l s ⟨.returned (some (.collaborator e)), [.NewSession (.err e)], s1⟩
  | managerErr (sess : Session) (e : String) (s1 s2 : σ) (hc : f.cluster ≠ "")
      (hs : f.serviceName ≠ "") (hr : W.getAWSRegion s ≠ "")
      (h1 : W.NewSession s = (.ok sess, s1))
      (h2 : W.NewHistoryManager f.backend f.cluster f.serviceName s1 = (.err e, s2)) :
      Steps W f l s ⟨.returned (some (.collaborator e)), [.NewSession (.ok sess),
        .NewHistoryManager f.backend f.cluster f.serviceName (.err e)], s2⟩
  | pullErr (sess : Session) (hm : HistoryManager) (e : String) (s1 s2 s3 : σ)
      (hc : f.cluster ≠ "") (hs : f.serviceName ≠ "") (hr : W.getAWSRegion s ≠ "")
      (h1 : W.NewSession s = (.ok sess, s1))
      (h2 : W.NewHistoryManager f.backend f.cluster f.serviceName s1 = (.ok hm, s2))
      (h3 : W.Pull hm s2 = (.err e, s3)) :
      Steps W f l s ⟨.returned (some (.collaborator e)), [.NewSession (.ok sess),
        .NewHistoryManager f.backend f.cluster f.serviceName (.ok hm),
        .Pull hm (.err e)], s3⟩
  | noHistory (sess : Session) (hm : HistoryManager) (states : List State) (s1 s2 s3 : σ)
      (hc : f.cluster ≠ "") (hs : f.serviceName ≠ "") (hr : W.getAWSRegion s ≠ "")
      (h1 : W.NewSession s = (.ok sess, s1))
      (h2 : W.NewHistoryManager f.backend f.cluster f.serviceName s1 = (.ok hm, s2))
      (h3 : W.Pull hm s2 = (.ok states, s3)) (hl : states.length < 2) :
      Steps W f l s ⟨.returned (some (.errorsNew "can not found a prev state")),
        trLoaded f sess hm states, s3⟩
  | describeErr (sess : Session) (hm : HistoryManager) (init : List State) (prev cur : State)
      (e : String) (s1 s2 s3 s4 : σ) (hl : Loaded W f s sess hm init prev cur s1 s2 s3)
      (h4 : W.DescribeService (ecsNew sess (W.getAWSRegion s)) f.cluster f.serviceName s3
        = (.err e, s4)) :
      Steps W f l s ⟨.returned (some (.collaborator e)), trLoaded f sess hm (init ++ [prev, cur]) ++
        [.DescribeService (ecsNew sess (W.getAWSRegion s)) f.cluster f.serviceName (.err e)],
        s4⟩
  | deploying (sess : Session) (hm : HistoryManager) (init : List State) (prev cur : State)
      (svc : Service) (s1 s2 s3 s4 : σ) (hl : Loaded W f s sess hm init prev cur s1 s2 s3)
      (h4 : W.DescribeService (ecsNew sess (W.getAWSRegion s)) f.cluster f.serviceName s3
        = (.ok svc, s4))
      (hd : svc.Deployments.length > 1) :
      Steps W f l s ⟨.returned (some (.errorsNew (f.serviceName ++ " is currently deploying"))),
        trLoaded f sess hm (init ++ [prev, cur]) ++
        [.DescribeService (ecsNew sess (W.getAWSRegion s)) f.cluster f.serviceName (.ok svc)],
        s4⟩
  | nilTaskDefinition (sess : Session) (hm : HistoryManager) (init : List State)
      (prev cur : State) (svc : Service) (s1 s2 s3 s4 : σ)
      (hl : Loaded W f s sess hm init prev cur s1 s2 s3)
      (h4 : W.DescribeService (ecsNew sess (W.getAWSRegion s)) f.cluster f.serviceName s3
        = (.ok svc, s4))
      (hd : ¬ svc.Deployments.length > 1) (ht : svc.TaskDefinition = none) :
      Steps W f l s ⟨.panic, trLoaded f sess hm (init ++ [prev, cur]) ++
        [.DescribeService (ecsNew sess (W.getAWSRegion s)) f.cluster f.serviceName (.ok svc)],
        s4⟩
  | resolveErr (sess : Session) (hm : HistoryManager) (init : List State) (prev cur : State)
      (svc : Service) (ref e : String) (s1 s2 s3 s4 : σ)
      (hl : Loaded W f s sess hm init prev cur s1 s2 s3)
      (h4 : W.DescribeService (ecsNew sess (W.getAWSRegion s)) f.cluster f.serviceName s3
        = (.ok svc, s4))
      (hd : ¬ svc.Deployments.length > 1) (ht : svc.TaskDefinition = some ref)
      (h5 : W.SpecifyRevision prev.Revision ref = .err e) :
      Steps W f l s ⟨.returned (some (.collaborator e)), trLoaded f sess hm (init ++ [prev, cur]) ++
        [.DescribeService (ecsNew sess (W.getAWSRegion s)) f.cluster f.serviceName (.ok svc),
          .SpecifyRevision prev.Revision ref (.err e)], s4⟩
  | taskDefErr (sess : Session) (hm : HistoryManager) (init : List State) (prev cur : State)
      (svc : Service) (ref arn e : String) (s1 s2 s3 s4 s5 : σ)
      (hl : Loaded W f s sess hm init prev cur s1 s2 s3)
      (h4 : W.DescribeService (ecsNew sess (W.getAWSRegion s)) f.cluster f.serviceName s3
        = (.ok svc, s4))
      (hd : ¬ svc.Deployments.length > 1) (ht : svc.TaskDefinition = some ref)
      (h5 : W.SpecifyRevision prev.Revision ref = .ok arn)
      (h6 : W.DescribeTaskDefinition (ecsNew sess (W.getAWSRegion s)) arn s4 = (.err e, s5)) :
      Steps W f l s ⟨.returned (some (.collaborator e)), trLoaded f sess hm (init ++ [prev, cur]) ++
        [.DescribeService (ecsNew sess (W.getAWSRegion s)) f.cluster f.serviceName (.ok svc),
          .SpecifyRevision prev.Revision ref (.ok arn),
          .DescribeTaskDefinition (ecsNew sess (W.getAWSRegion s)) arn (.err e)], s5⟩
  | updateErr (sess : Session) (hm : HistoryManager) (init : List State) (prev cur : State)
      (svc : Service) (ref arn : String) (td : TaskDefinition) (e : String)
      (s1 s2 s3 s4 s5 s6 : σ)
      (hst : Started W f s sess hm init prev cur svc ref arn td s1 s2 s3 s4 s5)
      (h7 : W.UpdateService (ecsNew sess (W.getAWSRegion s)) svc td s5 = (some e, s6)) :
      Steps W f l s ⟨.returned (some (.collaborator e)),
        trStarted f sess (W.getAWSRegion s) hm init prev cur svc ref arn td ++
        [.UpdateService (ecsNew sess (W.getAWSRegion s)) svc td (some e)], s6⟩
  | waitErr (sess : Session) (hm : HistoryManager) (init : List State) (prev cur : State)
      (svc : Service) (ref arn : String) (td : TaskDefinition) (e : String)
      (w : List Message) (s1 s2 s3 s4 s5 s6 s7 : σ)
      (hst : Started W f s sess hm init prev cur svc ref arn td s1 s2 s3 s4 s5)
      (h7 : W.UpdateService (ecsNew sess (W.getAWSRegion s)) svc td s5 = (none, s6))
      (h8 : W.WaitUpdateService (ecsNew sess (W.getAWSRegion s)) f.cluster f.serviceName l s6
        = ((w, some e), s7)) :
      Steps W f l s ⟨.returned (some (.collaborator e)),
        trStarted f sess (W.getAWSRegion s) hm init prev cur svc ref arn td ++
        [.UpdateService (ecsNew sess (W.getAWSRegion s)) svc td none,
          .Log "service updating\n",
          .WaitUpdateService (ecsNew sess (W.getAWSRegion s)) f.cluster f.serviceName l w
            (some e)],
        s7⟩
  | pushErr (sess : Session) (hm : HistoryManager) (init : List State) (prev cur : State)
      (svc : Service) (ref arn : String) (td : TaskDefinition) (e : String)
      (w : List Message) (s1 s2 s3 s4 s5 s6 s7 s8 : σ)
      (hst : Started W f s sess hm init prev cur svc ref arn td s1 s2 s3 s4 s5)
      (h7 : W.UpdateService (ecsNew sess (W.getAWSRegion s)) svc td s5 = (none, s6))
      (h8 : W.WaitUpdateService (ecsNew sess (W.getAWSRegion s)) f.cluster f.serviceName l s6
        = ((w, none), s7))
      (h9 : W.PushState hm prev.Revision (pushMsg cur prev) s7 = (some e, s8)) :
      Steps W f l s ⟨.returned (some (.collaborator e)),
        trStarted f sess (W.getAWSRegion s) hm init prev cur svc ref arn td ++
        [.UpdateService (ecsNew sess (W.getAWSRegion s)) svc td none,
          .Log "service updating\n",
          .WaitUpdateService (ecsNew sess (W.getAWSRegion s)) f.cluster f.serviceName l w none,
          .PushState hm prev.Revision (pushMsg cur prev) (some e)], s8⟩
  | done (sess : Session) (hm : HistoryManager) (init : List State) (prev cur : State)
      (svc : Service) (ref arn : String) (td : TaskDefinition)
      (w : List Message) (s1 s2 s3 s4 s5 s6 s7 s8 : σ)
      (hst : Started W f s sess hm init prev cur svc ref arn td s1 s2 s3 s4 s5)
      (h7 : W.UpdateService (ecsNew sess (W.getAWSRegion s)) svc td s5 = (none, s6))
      (h8 : W.WaitUpdateService (ecsNew sess (W.getAWSRegion s)) f.cluster f.serviceName l s6
        = ((w, none), s7))
      (h9 : W.PushState hm prev.Revision (pushMsg cur prev) s7 = (none, s8)) :
      Steps W f l s ⟨.returned none,
        trStarted f sess (W.getAWSRegion s) hm init prev cur svc ref arn td ++
        [.UpdateService (ecsNew sess (W.getAWSRegion s)) svc td none,
          .Log "service updating\n",
          .WaitUpdateService (ecsNew sess (W.getAWSRegion s)) f.cluster f.serviceName l w none,
          .PushState hm prev.Revision (pushMsg cur prev) none,
          .Log "successfully updated\n", .Slack "good" "successfully updated\n"], s8⟩

/-- Is the event a call of `libecs.UpdateService`, the one orchestrator mutation? -/
def Event.isUpdateService : Event → Bool
  | .UpdateService _ _ _ _ => true
  | _ => false

/-- Is the event a call of `historyManager.PushState`? -/
def Event.isPushState : Event → Bool
  | .PushState _ _ _ _ => true
  | _ => false

/-- Is the event a call of `libecs.WaitUpdateService`? -/
def Event.isWaitUpdateService : Event → Bool
  | .WaitUpdateService _ _ _ _ _ _ => true
  | _ => false

/-- Is the event a call of `historyManager.Pull`? -/
def Event.isPull : Event → Bool
  | .Pull _ _ => true
  | _ => false

/-- Is the event a call of `libecs.SpecifyRevision`? -/
def Event.isSpecifyRevision : Event → Bool
  | .SpecifyRevision _ _ _ => true
  | _ => false

/-- The messages an event puts before the operator: the one of a `Log` or
`Slack` call of `rollback.go`, and those `WaitUpdateService` wrote through the
logger it was handed. -/
def Event.written : Event → List Message
  | .Log msg => [.log msg]
  | .Slack color msg => [.slack color msg]
  | .WaitUpdateService _ _ _ _ written _ => written
  | _ => []

/-- All messages written through the logger during a run, in order. -/
def messages : List Event → List Message
  | [] => []
  | e :: t => e.written ++ messages t

/-- The error of rollback.go line 82. -/
def NoHistory : Error := .errorsNew "can not found a prev state"

/-- The error of rollback.go line 94. -/
def DeploymentInProgress (serviceName : String) : Error :=
  .errorsNew (serviceName ++ " is currently deploying")

/-- The errors of rollback.go lines 51 and 55. -/
def InvalidArgument (e : Error) : Prop :=
  e = .errorsNew "--cluster is required" ∨ e = .errorsNew "--service-name is required"

/-- The error of rollback.go line 60. -/
def ConfigurationMissing : Error :=
  .errorsNew "AWS region is not found. please set a AWS_DEFAULT_REGION or AWS_REGION"

/-- An append-only history store for the key `(backend, cluster, serviceName)`
inside a world: `log` reads the stored sequence off the world state.  A
successful `Pull` through a manager built for the key returns it, a successful
`PushState` appends exactly one entry at the end, and no other call changes
it. -/
structure AppendOnlyStore {σ : Type} (W : World σ) (backend cluster serviceName : String)
    (log : σ → List State) : Prop where
  session : ∀ s, log (W.NewSession s).2 = log s
  manager : ∀ s, log (W.NewHistoryManager backend cluster serviceName s).2 = log s
  pull_keeps : ∀ hm s, log (W.Pull hm s).2 = log s
  pull_reads : ∀ s hm s1, W.NewHistoryManager backend cluster serviceName s = (.ok hm, s1) →
    ∀ t h t1, W.Pull hm t = (.ok h, t1) → h = log t
  push_appends : ∀ s hm s1, W.NewHistoryManager backend cluster serviceName s = (.ok hm, s1) →
    ∀ t r m t1, W.PushState hm r m t = (none, t1) → log t1 = log t ++ [⟨r, m⟩]
  describe : ∀ c cl sv s, log (W.DescribeService c cl sv s).2 = log s
  read : ∀ c arn s, log (W.DescribeTaskDefinition c arn s).2 = log s
  update : ∀ c svc td s, log (W.UpdateService c svc td s).2 = log s
  wait : ∀ c cl sv l s, log (W.WaitUpdateService c cl sv l s).2 = log s

/-- World after `n` invocations of the command in a row, each started in the
world the one before left. -/
def worldAfter {σ : Type} (W : World σ) (f : rollbackCmd) (l : Logger) : Nat → σ → σ
  | 0, s => s
  | n + 1, s => worldAfter W f l n (execute W f l s).world

/-- Did each of `n` invocations in a row return `nil`? -/
def allSucceed {σ : Type} (W : World σ) (f : rollbackCmd) (l : Logger) : Nat → σ → Bool
  | 0, _ => true
  | n + 1, s =>
    decide ((execute W f l s).result = .returned none) &&
      allSucceed W f l n (execute W f l s).world

/-- The entry the `n`-th rollback in a row is expected to append (counting
from 1) when the log ended in revisions `a` then `b`: back to `a` for odd `n`,
to `b` for even `n`. -/
def nthRollback (a b : Int) (n : Nat) : State :=
  if n % 2 = 1 then ⟨a, "rollback: " ++ fmtD b ++ " -> " ++ fmtD a⟩
  else ⟨b, "rollback: " ++ fmtD a ++ " -> " ++ fmtD b⟩

/-- Settings of the reference world `memWorld`: what each collaborator answers. -/
structure Script where
  region : String
  session : Reply Session
  manager : Reply HistoryManager
  pullErr : Option String
  service : Reply Service
  resolve : Int → String → Reply String
  taskDef : Reply TaskDefinition
  update : Option String
  waitWrites : List Message
  wait : Option String
  push : Option String

/-- A reference world whose state is the history log itself: `Pull` reads it,
a successful `PushState` appends one entry to it, and no other call touches
it. -/
def memWorld (c : Script) : World (List State) where
  getAWSRegion := fun _ => c.region
  NewSession := fun s => (c.session, s)
  NewHistoryManager := fun _ _ _ s => (c.manager, s)
  Pull := fun _ s =>
    match c.pullErr with
    | some e => (.err e, s)
    | none => (.ok s, s)
  PushState := fun _ r m s =>
    match c.push with
    | some e => (some e, s)
    | none => (none, s ++ [⟨r, m⟩])
  DescribeService := fun _ _ _ s => (c.service, s)
  SpecifyRevision := c.resolve
  DescribeTaskDefinition := fun _ _ s => (c.taskDef, s)
  UpdateService := fun _ _ _ s => (c.update, s)
  WaitUpdateService := fun _ _ _ _ s => ((c.waitWrites, c.wait), s)

/-- A script in which every collaborator succeeds; the service reports one
deployment running `app:7`. -/
def okScript : Script where
  region := "ap-northeast-1"
  session := .ok ⟨"sess"⟩
  manager := .ok ⟨"SSM"⟩
  pullErr := none
  service := .ok ⟨some "app:7", ["d1"]⟩
  resolve := fun r _ => .ok ("app:" ++ fmtD r)
  taskDef := .ok ⟨"app:5"⟩
  update := none
  waitWrites := []
  wait := none
  push := none

/-- Flags of the sample invocation. -/
def sampleCmd : rollbackCmd := ⟨"prod", "web", "SSM", ""⟩

/-- The logger `RunE` builds for the sample invocation. -/
def sampleLogger : Logger := NewLogger "prod" "web" ""

/-- The client the sample invocation builds. -/
def sampleClient : Client := ecsNew ⟨"sess"⟩ "ap-northeast-1"

/-- The sample history of length one. -/
def oneEntry : List State := [⟨5, "deploy"⟩]

/-- The sample history: revision 5 deployed, then revision 7. -/
def twoEntries : List State := [⟨5, "deploy"⟩, ⟨7, "deploy"⟩]

/-- The service reports two deployments. -/
def deployingScript : Script :=
  { okScript with service := .ok ⟨some "app:7", ["d1", "d2"]⟩ }

/-- The region is not set in the environment. -/
def noRegionScript : Script := { okScript with region := "" }

/-- The orchestrator rejects the update. -/
def updateFailScript : Script := { okScript with update := some "update rejected" }

/-- The stabilization wait writes a progress line and fails. -/
def waitFailScript : Script :=
  { okScript with
    waitWrites := [.log "waiting\n"]
    wait := some "RequestError: send request failed" }

/-- The service snapshot carries no task-definition reference. -/
def nilReferenceScript : Script := { okScript with service := .ok ⟨none, ["d1"]⟩ }

/-- The stabilization wait writes a progress line and succeeds; the history
store then fails on a network error. -/
def pushFailScript : Script :=
  { okScript with
    waitWrites := [.log "waiting\n"]
    push := some "RequestError: send request failed" }

/-- A list of at least two entries ends in its entries at `len - 2` and
`len - 1`, the `prevState` and `state` of rollback.go lines 85-86. -/
theorem two_last (states : List State) (h : ¬ states.length < 2) :
    ∃ init prev cur, states = init ++ [prev, cur] ∧
      states.get ⟨states.length - 2, by omega⟩ = prev ∧
      states.get ⟨states.length - 1, by omega⟩ = cur := by
  induction states with
  | nil => simp at h
  | cons a t ih =>
    match t, ih with
    | [], _ => simp at h
    | [b], _ => exact ⟨[], a, b, by simp⟩
    | b :: c :: r, ih =>
      obtain ⟨init, prev, cur, he, hp, hc⟩ := ih (by simp)
      refine ⟨a :: init, prev, cur, by simp [he], ?_, ?_⟩
      · simpa using hp
      · simpa using hc

/-- The last two entries of a list, and what precedes them, are determined by
the list. -/
theorem two_last_inj (init init1 : List State) (prev cur prev1 cur1 : State) :
    init ++ [prev, cur] = init1 ++ [prev1, cur1] ↔ init = init1 ∧ prev = prev1 ∧ cur = cur1 := by
  constructor
  · intro h
    have h1 := congrArg List.reverse h
    simp only [List.reverse_append, List.reverse_cons, List.reverse_nil, List.nil_append,
      List.singleton_append, List.cons_append, List.cons.injEq, List.reverse_inj] at h1
    exact ⟨h1.2.2, h1.2.1, h1.1⟩
  · rintro ⟨rfl, rfl, rfl⟩
    rfl

/-- Every run of `execute` leaves by one of the exits of `Steps`. -/
theorem execute_steps {σ : Type} (W : World σ) (f : rollbackCmd) (l : Logger) (s : σ) :
    Steps W f l s (execute W f l s) := by
  unfold execute
  by_cases hc : f.cluster = ""
  · simp only [hc, if_true]; exact .noCluster hc
  by_cases hs : f.serviceName = ""
  · simp only [hc, hs, if_true, if_false]; exact .noService hc hs
  by_cases hr : W.getAWSRegion s = ""
  · simp only [hc, hs, hr, if_true, if_false]; exact .noRegion hc hs hr
  simp only [hc, hs, hr, if_false]
  rcases h1 : W.NewSession s with ⟨_ | e, s1⟩
  swap
  · exact .sessionErr e s1 hc hs hr h1
  rename_i sess
  simp only []
  rcases h2 : W.NewHistoryManager f.backend f.cluster f.serviceName s1 with ⟨_ | e, s2⟩
  swap
  · exact .managerErr sess e s1 s2 hc hs hr h1 h2
  rename_i hm
  simp only []
  rcases h3 : W.Pull hm s2 with ⟨_ | e, s3⟩
  swap
  · exact .pullErr sess hm e s1 s2 s3 hc hs hr h1 h2 h3
  rename_i states
  simp only []
  by_cases hl : states.length < 2
  · simp only [hl, dite_true]; exact .noHistory sess hm states s1 s2 s3 hc hs hr h1 h2 h3 hl
  simp only [hl, dite_false]
  obtain ⟨init, prev, cur, he, hp, hcur⟩ := two_last states hl
  simp only [hp, hcur]
  subst he
  have hL : Loaded W f s sess hm init prev cur s1 s2 s3 := ⟨hc, hs, hr, h1, h2, h3⟩
  rcases h4 : W.DescribeService (ecsNew sess (W.getAWSRegion s)) f.cluster f.serviceName s3
    with ⟨_ | e, s4⟩
  swap
  · exact .describeErr sess hm init prev cur e s1 s2 s3 s4 hL h4
  rename_i svc
  simp only []
  by_cases hd : svc.Deployments.length > 1
  · simp only [hd, if_true]; exact .deploying sess hm init prev cur svc s1 s2 s3 s4 hL h4 hd
  simp only [hd, if_false]
  rcases ht : svc.TaskDefinition with _ | ref
  · exact .nilTaskDefinition sess hm init prev cur svc s1 s2 s3 s4 hL h4 hd ht
  simp only []
  rcases h5 : W.SpecifyRevision prev.Revision ref with _ | e
  swap
  · exact .resolveErr sess hm init prev cur svc ref e s1 s2 s3 s4 hL h4 hd ht h5
  rename_i arn
  simp only []
  rcases h6 : W.DescribeTaskDefinition (ecsNew sess (W.getAWSRegion s)) arn s4 with ⟨_ | e, s5⟩
  swap
  · exact .taskDefErr sess hm init prev cur svc ref arn e s1 s2 s3 s4 s5 hL h4 hd ht h5 h6
  rename_i td
  simp only []
  have hS : Started W f s sess hm init prev cur svc ref arn td s1 s2 s3 s4 s5 :=
    ⟨hL, h4, hd, ht, h5, h6⟩
  rcases h7 : W.UpdateService (ecsNew sess (W.getAWSRegion s)) svc td s5 with ⟨_ | e, s6⟩
  swap
  · exact .updateErr sess hm init prev cur svc ref arn td e s1 s2 s3 s4 s5 s6 hS h7
  simp only []
  rcases h8 : W.WaitUpdateService (ecsNew sess (W.getAWSRegion s)) f.cluster f.serviceName
    l s6 with ⟨⟨w, _ | e⟩, s7⟩
  swap
  · exact .waitErr sess hm init prev cur svc ref arn td e w s1 s2 s3 s4 s5 s6 s7 hS h7 h8
  simp only []
  rcases h9 : W.PushState hm prev.Revision
    ("rollback: " ++ fmtD cur.Revision ++ " -> " ++ fmtD prev.Revision) s7 with ⟨_ | e, s8⟩
  swap
  · exact .pushErr sess hm init prev cur svc ref arn td e w s1 s2 s3 s4 s5 s6 s7 s8 hS h7 h8 h9
  exact .done sess hm init prev cur svc ref arn td w s1 s2 s3 s4 s5 s6 s7 s8 hS h7 h8 h9

/-- Second component of a pair known by an equation. -/
theorem snd_of_eq {α β : Type} {p : α × β} {a : α} {b : β} (h : p = (a, b)) : p.2 = b := by
  rw [h]

/-- Up to `Pull` the store is only read, and `Pull` returned its content. -/
theorem loaded_log_eq {σ : Type} {W : World σ} {f : rollbackCmd} {s : σ} {sess : Session}
    {hm : HistoryManager} {init : List State} {prev cur : State} {s1 s2 s3 : σ}
    {log : σ → List State}
    (hL : Loaded W f s sess hm init prev cur s1 s2 s3)
    (hA : AppendOnlyStore W f.backend f.cluster f.serviceName log) :
    log s3 = log s ∧ init ++ [prev, cur] = log s := by
  obtain ⟨-, -, -, h1, h2, h3⟩ := hL
  have e1 : log s1 = log s := by
      rw [← snd_of_eq h1]; exact hA.session _
  have e2 : log s2 = log s1 := by
      rw [← snd_of_eq h2]; exact hA.manager _
  have e3 : log s3 = log s2 := by
      rw [← snd_of_eq h3]; exact hA.pull_keeps hm _
  have e4 := hA.pull_reads s1 hm s2 h2 s2 _ s3 h3
  exact ⟨by rw [e3, e2, e1], by rw [e4, e2, e1]⟩

/-- Up to the start notification the store is only read. -/
theorem started_log_eq {σ : Type} {W : World σ} {f : rollbackCmd} {s : σ} {sess : Session}
    {hm : HistoryManager} {init : List State} {prev cur : State} {svc : Service}
    {ref arn : String} {td : TaskDefinition} {s1 s2 s3 s4 s5 : σ} {log : σ → List State}
    (hS : Started W f s sess hm init prev cur svc ref arn td s1 s2 s3 s4 s5)
    (hA : AppendOnlyStore W f.backend f.cluster f.serviceName log) :
    log s5 = log s ∧ init ++ [prev, cur] = log s := by
  obtain ⟨hL, h4, -, -, -, h6⟩ := hS
  obtain ⟨e3, e⟩ := loaded_log_eq hL hA
  have e4 : log s4 = log s3 := by
      rw [← snd_of_eq h4]; exact hA.describe _ _ _ _
  have e5 : log s5 = log s4 := by
      rw [← snd_of_eq h6]; exact hA.read _ _ _
  exact ⟨by rw [e5, e4, e3], e⟩

/-- A run that does not reach `PushState` leaves the stored history as it
was; a run that ends in success leaves it with one entry appended. -/
theorem execute_log {σ : Type} (W : World σ) (f : rollbackCmd) (l : Logger) (s : σ)
    (log : σ → List State)
    (hA : AppendOnlyStore W f.backend f.cluster f.serviceName log) :
    ((∀ e ∈ (execute W f l s).trace, e.isPushState = false) →
      log (execute W f l s).world = log s) ∧
    ((execute W f l s).result = .returned none →
      ∃ init prev cur, log s = init ++ [prev, cur] ∧
        log (execute W f l s).world = log s ++ [⟨prev.Revision, pushMsg cur prev⟩]) := by
  have hst := execute_steps W f l s
  generalize execute W f l s = o at hst ⊢
  cases hst with
  | noCluster hc => simp
  | noService hc hs => simp
  | noRegion hc hs hr => simp
  | sessionErr e s1 hc hs hr h1 =>
    have e1 : log s1 = log s := by
      rw [← snd_of_eq h1]; exact hA.session _
    simp [e1]
  | managerErr sess e s1 s2 hc hs hr h1 h2 =>
    have e1 : log s1 = log s := by
      rw [← snd_of_eq h1]; exact hA.session _
    have e2 : log s2 = log s1 := by
      rw [← snd_of_eq h2]; exact hA.manager _
    simp [e1, e2]
  | pullErr sess hm e s1 s2 s3 hc hs hr h1 h2 h3 =>
    have e1 : log s1 = log s := by
      rw [← snd_of_eq h1]; exact hA.session _
    have e2 : log s2 = log s1 := by
      rw [← snd_of_eq h2]; exact hA.manager _
    have e3 : log s3 = log s2 := by
      rw [← snd_of_eq h3]; exact hA.pull_keeps hm _
    simp [e1, e2, e3]
  | noHistory sess hm states s1 s2 s3 hc hs hr h1 h2 h3 hl =>
    have e1 : log s1 = log s := by
      rw [← snd_of_eq h1]; exact hA.session _
    have e2 : log s2 = log s1 := by
      rw [← snd_of_eq h2]; exact hA.manager _
    have e3 : log s3 = log s2 := by
      rw [← snd_of_eq h3]; exact hA.pull_keeps hm _
    simp [e1, e2, e3]
  | describeErr sess hm init prev cur e s1 s2 s3 s4 hl h4 =>
    have e4 : log s4 = log s3 := by
      rw [← snd_of_eq h4]; exact hA.describe _ _ _ _
    simp [e4, (loaded_log_eq hl hA).1]
  | deploying sess hm init prev cur svc s1 s2 s3 s4 hl h4 hd =>
    have e4 : log s4 = log s3 := by
      rw [← snd_of_eq h4]; exact hA.describe _ _ _ _
    simp [e4, (loaded_log_eq hl hA).1]
  | nilTaskDefinition sess hm init prev cur svc s1 s2 s3 s4 hl h4 hd ht =>
    have e4 : log s4 = log s3 := by
      rw [← snd_of_eq h4]; exact hA.describe _ _ _ _
    simp [e4, (loaded_log_eq hl hA).1]
  | resolveErr sess hm init prev cur svc ref e s1 s2 s3 s4 hl h4 hd ht h5 =>
    have e4 : log s4 = log s3 := by
      rw [← snd_of_eq h4]; exact hA.describe _ _ _ _
    simp [e4, (loaded_log_eq hl hA).1]
  | taskDefErr sess hm init prev cur svc ref arn e s1 s2 s3 s4 s5 hl h4 hd ht h5 h6 =>
    have e4 : log s4 = log s3 := by
      rw [← snd_of_eq h4]; exact hA.describe _ _ _ _
    have e5 : log s5 = log s4 := by
      rw [← snd_of_eq h6]; exact hA.read _ _ _
    simp [e5, e4, (loaded_log_eq hl hA).1]
  | updateErr sess hm init prev cur svc ref arn td e s1 s2 s3 s4 s5 s6 hst h7 =>
    have e6 : log s6 = log s5 := by
      rw [← snd_of_eq h7]; exact hA.update _ _ _ _
    simp [e6, (started_log_eq hst hA).1]
  | waitErr sess hm init prev cur svc ref arn td e w s1 s2 s3 s4 s5 s6 s7 hst h7 h8 =>
    have e6 : log s6 = log s5 := by
      rw [← snd_of_eq h7]; exact hA.update _ _ _ _
    have e7 : log s7 = log s6 := by
      rw [← snd_of_eq h8]; exact hA.wait _ _ _ _ _
    simp [e7, e6, (started_log_eq hst hA).1]
  | pushErr sess hm init prev cur svc ref arn td e w s1 s2 s3 s4 s5 s6 s7 s8 hst h7 h8 h9 =>
    simp [Event.isPushState, trStarted, trLoaded]
  | done sess hm init prev cur svc ref arn td w s1 s2 s3 s4 s5 s6 s7 s8 hst h7 h8 h9 =>
    have e6 : log s6 = log s5 := by
      rw [← snd_of_eq h7]; exact hA.update _ _ _ _
    have e7 : log s7 = log s6 := by
      rw [← snd_of_eq h8]; exact hA.wait _ _ _ _ _
    have e8 := hA.push_appends s1 hm s2 hst.1.2.2.2.2.1 s7 _ _ s8 h9
    obtain ⟨e5, e⟩ := started_log_eq hst hA
    refine ⟨fun hno => ?_, fun _ => ⟨init, prev, cur, e.symm, ?_⟩⟩
    · have := hno (.PushState hm prev.Revision (pushMsg cur prev) none) (by simp)
      simp [Event.isPushState] at this
    simp only [e8, e7, e6, e5]

/-- Messages of a trace made of two parts. -/
theorem messages_append (a b : List Event) : messages (a ++ b) = messages a ++ messages b := by
  induction a with
  | nil => rfl
  | cons e t ih => simp [messages, ih]

/-- The replies of the collaborators up to the service snapshot determine what a
run that got as far as the snapshot saw. -/
theorem described_inv {σ : Type} {W : World σ} {f : rollbackCmd} {s : σ}
    {sess sess1 : Session} {hm hm1 : HistoryManager} {init init1 : List State}
    {prev prev1 cur cur1 : State} {svc svc1 : Service} {s1 s2 s3 s4 t1 t2 t3 t4 : σ}
    (h1 : W.NewSession s = (.ok sess, s1))
    (h2 : W.NewHistoryManager f.backend f.cluster f.serviceName s1 = (.ok hm, s2))
    (h3 : W.Pull hm s2 = (.ok (init ++ [prev, cur]), s3))
    (h4 : W.DescribeService (ecsNew sess (W.getAWSRegion s)) f.cluster f.serviceName s3
      = (.ok svc, s4))
    (hL : Loaded W f s sess1 hm1 init1 prev1 cur1 t1 t2 t3)
    (g4 : W.DescribeService (ecsNew sess1 (W.getAWSRegion s)) f.cluster f.serviceName t3
      = (.ok svc1, t4)) :
    sess1 = sess ∧ hm1 = hm ∧ init1 = init ∧ prev1 = prev ∧ cur1 = cur ∧ svc1 = svc ∧
      t1 = s1 ∧ t2 = s2 ∧ t3 = s3 ∧ t4 = s4 := by
  obtain ⟨-, -, -, g1, g2, g3⟩ := hL
  rw [h1] at g1
  simp only [Prod.mk.injEq, Reply.ok.injEq] at g1
  obtain ⟨rfl, rfl⟩ := g1
  rw [h2] at g2
  simp only [Prod.mk.injEq, Reply.ok.injEq] at g2
  obtain ⟨rfl, rfl⟩ := g2
  rw [h3] at g3
  simp only [Prod.mk.injEq, Reply.ok.injEq, two_last_inj] at g3
  obtain ⟨⟨rfl, rfl, rfl⟩, rfl⟩ := g3
  rw [h4] at g4
  simp only [Prod.mk.injEq, Reply.ok.injEq] at g4
  obtain ⟨rfl, rfl⟩ := g4
  simp

/-- C1. When `Pull` returned a history `h` of fewer than two entries (the
cluster, the service name and the region being non-empty), `execute` returns
the NoHistory error, whatever the other collaborators would do; the calls it
made are exactly the session, the history manager and `Pull`, so
`UpdateService` and `PushState` are never called; and over an append-only
store the stored history is the one it was before the run. -/
theorem c1_short_history_fails {σ : Type} (W : World σ) (f : rollbackCmd) (l : Logger)
    (s : σ) (hm : HistoryManager) (h : List State)
    (hc : f.cluster ≠ "") (hs : f.serviceName ≠ "") (hr : W.getAWSRegion s ≠ "")
    (hp : Event.Pull hm (.ok h) ∈ (execute W f l s).trace) (hl : h.length < 2) :
    (execute W f l s).result = .returned (some NoHistory) ∧
    (∃ sess, (execute W f l s).trace = [.NewSession (.ok sess),
      .NewHistoryManager f.backend f.cluster f.serviceName (.ok hm), .Pull hm (.ok h)]) ∧
    (∀ e ∈ (execute W f l s).trace, e.isUpdateService = false ∧ e.isPushState = false) ∧
    (∀ log, AppendOnlyStore W f.backend f.cluster f.serviceName log →
      log (execute W f l s).world = log s) := by
  have key : (execute W f l s).result = .returned (some NoHistory) ∧
      (∃ sess, (execute W f l s).trace = [.NewSession (.ok sess),
        .NewHistoryManager f.backend f.cluster f.serviceName (.ok hm), .Pull hm (.ok h)]) := by
    have hst := execute_steps W f l s
    generalize execute W f l s = o at hst hp ⊢
    cases hst <;> simp_all [trLoaded, trStarted, NoHistory]
  obtain ⟨h1, sess, h2⟩ := key
  have h3 : ∀ e ∈ (execute W f l s).trace,
      e.isUpdateService = false ∧ e.isPushState = false := by
    rw [h2]; simp [Event.isUpdateService, Event.isPushState]
  exact ⟨h1, ⟨sess, h2⟩, h3,
    fun log hA => (execute_log W f l s log hA).1 fun e he => (h3 e he).2⟩

/-- C2. When `DescribeService` returned a snapshot with more than one
deployment (which happens only after a history of at least two entries was
pulled), `execute` returns the DeploymentInProgress error, its last call is
that `DescribeService`, and neither `UpdateService` nor `PushState` is
called. -/
theorem c2_deployment_in_progress {σ : Type} (W : World σ) (f : rollbackCmd) (l : Logger)
    (s : σ) (c : Client) (cl sv : String) (svc : Service)
    (hd : Event.DescribeService c cl sv (.ok svc) ∈ (execute W f l s).trace)
    (hn : svc.Deployments.length > 1) :
    (execute W f l s).result = .returned (some (DeploymentInProgress f.serviceName)) ∧
    (∃ sess hm h, 2 ≤ h.length ∧ (execute W f l s).trace = [.NewSession (.ok sess),
      .NewHistoryManager f.backend f.cluster f.serviceName (.ok hm), .Pull hm (.ok h),
      .DescribeService c cl sv (.ok svc)]) ∧
    (∀ e ∈ (execute W f l s).trace, e.isUpdateService = false ∧ e.isPushState = false) := by
  have key : (execute W f l s).result = .returned (some (DeploymentInProgress f.serviceName)) ∧
      (∃ sess hm h, 2 ≤ h.length ∧ (execute W f l s).trace = [.NewSession (.ok sess),
        .NewHistoryManager f.backend f.cluster f.serviceName (.ok hm), .Pull hm (.ok h),
        .DescribeService c cl sv (.ok svc)]) := by
    have hst := execute_steps W f l s
    generalize execute W f l s = o at hst hd ⊢
    cases hst <;> simp_all [trLoaded, trStarted, DeploymentInProgress, Started, Loaded]
    all_goals first
      | omega
      | (refine ⟨_, _, _, ?_, rfl, rfl, rfl⟩; simp)
  obtain ⟨h1, sess, hm, h, h2, h3⟩ := key
  refine ⟨h1, ⟨sess, hm, h, h2, h3⟩, ?_⟩
  rw [h3]; simp [Event.isUpdateService, Event.isPushState]

/-- After a snapshot with at most one deployment and the reference `ref`,
`SpecifyRevision` is called exactly once, with the revision of the
second-to-last entry and `ref`; when it resolves `arn` and the document `td`
is read for `arn`, `UpdateService` is called exactly once, with the snapshot
and `td`. -/
theorem specify_revision_of_reference {σ : Type} (W : World σ) (f : rollbackCmd) (l : Logger)
    (s : σ) (sess : Session) (hm : HistoryManager) (init : List State) (prev cur : State)
    (svc : Service) (ref : String) (s1 s2 s3 s4 : σ)
    (hc : f.cluster ≠ "") (hs : f.serviceName ≠ "") (hr : W.getAWSRegion s ≠ "")
    (h1 : W.NewSession s = (.ok sess, s1))
    (h2 : W.NewHistoryManager f.backend f.cluster f.serviceName s1 = (.ok hm, s2))
    (h3 : W.Pull hm s2 = (.ok (init ++ [prev, cur]), s3))
    (h4 : W.DescribeService (ecsNew sess (W.getAWSRegion s)) f.cluster f.serviceName s3
      = (.ok svc, s4))
    (hd : svc.Deployments.length ≤ 1) (ht : svc.TaskDefinition = some ref) :
    (execute W f l s).trace.filter Event.isSpecifyRevision
      = [.SpecifyRevision prev.Revision ref (W.SpecifyRevision prev.Revision ref)] ∧
    (cur.Revision ≠ prev.Revision →
      ∀ a res, Event.SpecifyRevision cur.Revision a res ∉ (execute W f l s).trace) ∧
    (∀ arn td s5, W.SpecifyRevision prev.Revision ref = .ok arn →
      W.DescribeTaskDefinition (ecsNew sess (W.getAWSRegion s)) arn s4 = (.ok td, s5) →
      Event.DescribeTaskDefinition (ecsNew sess (W.getAWSRegion s)) arn (.ok td)
        ∈ (execute W f l s).trace ∧
      (execute W f l s).trace.filter Event.isUpdateService
        = [.UpdateService (ecsNew sess (W.getAWSRegion s)) svc td
            (W.UpdateService (ecsNew sess (W.getAWSRegion s)) svc td s5).1]) := by
  have hst := execute_steps W f l s
  generalize execute W f l s = o at hst ⊢
  cases hst with
  | deploying sess1 hm1 init1 prev1 cur1 svc1 t1 t2 t3 t4 hl g4 gd =>
    obtain ⟨rfl, rfl, rfl, rfl, rfl, rfl, rfl, rfl, rfl, rfl⟩ :=
      described_inv h1 h2 h3 h4 hl g4
    omega
  | resolveErr sess1 hm1 init1 prev1 cur1 svc1 ref1 e t1 t2 t3 t4 hl g4 gd gt g5 =>
    obtain ⟨rfl, rfl, rfl, rfl, rfl, rfl, rfl, rfl, rfl, rfl⟩ :=
      described_inv h1 h2 h3 h4 hl g4
    obtain rfl : ref1 = ref := Option.some.inj (gt.symm.trans ht)
    refine ⟨by simp [trLoaded, List.filter_cons, Event.isSpecifyRevision, g5],
      fun hne a res => by simpa [trLoaded] using fun h => (hne h).elim, ?_⟩
    intro arn td s5 e5
    rw [g5] at e5
    cases e5
  | taskDefErr sess1 hm1 init1 prev1 cur1 svc1 ref1 arn1 e t1 t2 t3 t4 t5 hl g4 gd gt g5 g6 =>
    obtain ⟨rfl, rfl, rfl, rfl, rfl, rfl, rfl, rfl, rfl, rfl⟩ :=
      described_inv h1 h2 h3 h4 hl g4
    obtain rfl : ref1 = ref := Option.some.inj (gt.symm.trans ht)
    refine ⟨by simp [trLoaded, List.filter_cons, Event.isSpecifyRevision, g5],
      fun hne a res => by simpa [trLoaded] using fun h => (hne h).elim, ?_⟩
    intro arn td s5 e5 e6
    rw [g5] at e5
    cases e5
    rw [g6] at e6
    cases e6
  | updateErr sess1 hm1 init1 prev1 cur1 svc1 ref1 arn1 td1 e t1 t2 t3 t4 t5 t6 hst g7 =>
    obtain ⟨hl, g4, gd, gt, g5, g6⟩ := hst
    obtain ⟨rfl, rfl, rfl, rfl, rfl, rfl, rfl, rfl, rfl, rfl⟩ :=
      described_inv h1 h2 h3 h4 hl g4
    obtain rfl : ref1 = ref := Option.some.inj (gt.symm.trans ht)
    refine ⟨by simp [trStarted, trLoaded, List.filter_cons, Event.isSpecifyRevision, g5],
      fun hne a res => by simpa [trStarted, trLoaded] using fun h => (hne h).elim, ?_⟩
    intro arn td s5 e5 e6
    rw [g5] at e5
    cases e5
    rw [g6] at e6
    cases e6
    simp [trStarted, trLoaded, List.filter_cons, Event.isUpdateService, g7]
  | waitErr sess1 hm1 init1 prev1 cur1 svc1 ref1 arn1 td1 e w t1 t2 t3 t4 t5 t6 t7 hst g7 g8 =>
    obtain ⟨hl, g4, gd, gt, g5, g6⟩ := hst
    obtain ⟨rfl, rfl, rfl, rfl, rfl, rfl, rfl, rfl, rfl, rfl⟩ :=
      described_inv h1 h2 h3 h4 hl g4
    obtain rfl : ref1 = ref := Option.some.inj (gt.symm.trans ht)
    refine ⟨by simp [trStarted, trLoaded, List.filter_cons, Event.isSpecifyRevision, g5],
      fun hne a res => by simpa [trStarted, trLoaded] using fun h => (hne h).elim, ?_⟩
    intro arn td s5 e5 e6
    rw [g5] at e5
    cases e5
    rw [g6] at e6
    cases e6
    simp [trStarted, trLoaded, List.filter_cons, Event.isUpdateService, g7]
  | pushErr sess1 hm1 init1 prev1 cur1 svc1 ref1 arn1 td1 e w t1 t2 t3 t4 t5 t6 t7 t8 hst
      g7 g8 g9 =>
    obtain ⟨hl, g4, gd, gt, g5, g6⟩ := hst
    obtain ⟨rfl, rfl, rfl, rfl, rfl, rfl, rfl, rfl, rfl, rfl⟩ :=
      described_inv h1 h2 h3 h4 hl g4
    obtain rfl : ref1 = ref := Option.some.inj (gt.symm.trans ht)
    refine ⟨by simp [trStarted, trLoaded, List.filter_cons, Event.isSpecifyRevision, g5],
      fun hne a res => by simpa [trStarted, trLoaded] using fun h => (hne h).elim, ?_⟩
    intro arn td s5 e5 e6
    rw [g5] at e5
    cases e5
    rw [g6] at e6
    cases e6
    simp [trStarted, trLoaded, List.filter_cons, Event.isUpdateService, g7]
  | done sess1 hm1 init1 prev1 cur1 svc1 ref1 arn1 td1 w t1 t2 t3 t4 t5 t6 t7 t8 hst g7 g8 g9 =>
    obtain ⟨hl, g4, gd, gt, g5, g6⟩ := hst
    obtain ⟨rfl, rfl, rfl, rfl, rfl, rfl, rfl, rfl, rfl, rfl⟩ :=
      described_inv h1 h2 h3 h4 hl g4
    obtain rfl : ref1 = ref := Option.some.inj (gt.symm.trans ht)
    refine ⟨by simp [trStarted, trLoaded, List.filter_cons, Event.isSpecifyRevision, g5],
      fun hne a res => by simpa [trStarted, trLoaded] using fun h => (hne h).elim, ?_⟩
    intro arn td s5 e5 e6
    rw [g5] at e5
    cases e5
    rw [g6] at e6
    cases e6
    simp [trStarted, trLoaded, List.filter_cons, Event.isUpdateService, g7]
  | _ => simp_all [Loaded]

/-- After a snapshot with at most one deployment and no reference, the run
panics at the dereference of rollback.go line 99 having made no call of
`SpecifyRevision`. -/
theorem nil_reference_panics {σ : Type} (W : World σ) (f : rollbackCmd) (l : Logger)
    (s : σ) (sess : Session) (hm : HistoryManager) (init : List State) (prev cur : State)
    (svc : Service) (s1 s2 s3 s4 : σ)
    (hc : f.cluster ≠ "") (hs : f.serviceName ≠ "") (hr : W.getAWSRegion s ≠ "")
    (h1 : W.NewSession s = (.ok sess, s1))
    (h2 : W.NewHistoryManager f.backend f.cluster f.serviceName s1 = (.ok hm, s2))
    (h3 : W.Pull hm s2 = (.ok (init ++ [prev, cur]), s3))
    (h4 : W.DescribeService (ecsNew sess (W.getAWSRegion s)) f.cluster f.serviceName s3
      = (.ok svc, s4))
    (hd : svc.Deployments.length ≤ 1) (ht : svc.TaskDefinition = none) :
    (execute W f l s).result = .panic ∧
    (execute W f l s).trace.filter Event.isSpecifyRevision = [] := by
  have hst := execute_steps W f l s
  generalize execute W f l s = o at hst ⊢
  cases hst with
  | deploying sess1 hm1 init1 prev1 cur1 svc1 t1 t2 t3 t4 hl g4 gd =>
    obtain ⟨rfl, rfl, rfl, rfl, rfl, rfl, rfl, rfl, rfl, rfl⟩ :=
      described_inv h1 h2 h3 h4 hl g4
    omega
  | nilTaskDefinition sess1 hm1 init1 prev1 cur1 svc1 t1 t2 t3 t4 hl g4 gd gt =>
    simp [trLoaded, List.filter_cons, Event.isSpecifyRevision]
  | resolveErr sess1 hm1 init1 prev1 cur1 svc1 ref1 e t1 t2 t3 t4 hl g4 gd gt g5 =>
    obtain ⟨rfl, rfl, rfl, rfl, rfl, rfl, rfl, rfl, rfl, rfl⟩ :=
      described_inv h1 h2 h3 h4 hl g4
    rw [ht] at gt
    cases gt
  | taskDefErr sess1 hm1 init1 prev1 cur1 svc1 ref1 arn1 e t1 t2 t3 t4 t5 hl g4 gd gt g5 g6 =>
    obtain ⟨rfl, rfl, rfl, rfl, rfl, rfl, rfl, rfl, rfl, rfl⟩ :=
      described_inv h1 h2 h3 h4 hl g4
    rw [ht] at gt
    cases gt
  | updateErr sess1 hm1 init1 prev1 cur1 svc1 ref1 arn1 td1 e t1 t2 t3 t4 t5 t6 hst g7 =>
    obtain ⟨hl, g4, gd, gt, g5, g6⟩ := hst
    obtain ⟨rfl, rfl, rfl, rfl, rfl, rfl, rfl, rfl, rfl, rfl⟩ :=
      described_inv h1 h2 h3 h4 hl g4
    rw [ht] at gt
    cases gt
  | waitErr sess1 hm1 init1 prev1 cur1 svc1 ref1 arn1 td1 e w t1 t2 t3 t4 t5 t6 t7 hst g7 g8 =>
    obtain ⟨hl, g4, gd, gt, g5, g6⟩ := hst
    obtain ⟨rfl, rfl, rfl, rfl, rfl, rfl, rfl, rfl, rfl, rfl⟩ :=
      described_inv h1 h2 h3 h4 hl g4
    rw [ht] at gt
    cases gt
  | pushErr sess1 hm1 init1 prev1 cur1 svc1 ref1 arn1 td1 e w t1 t2 t3 t4 t5 t6 t7 t8 hst
      g7 g8 g9 =>
    obtain ⟨hl, g4, gd, gt, g5, g6⟩ := hst
    obtain ⟨rfl, rfl, rfl, rfl, rfl, rfl, rfl, rfl, rfl, rfl⟩ :=
      described_inv h1 h2 h3 h4 hl g4
    rw [ht] at gt
    cases gt
  | done sess1 hm1 init1 prev1 cur1 svc1 ref1 arn1 td1 w t1 t2 t3 t4 t5 t6 t7 t8 hst g7 g8 g9 =>
    obtain ⟨hl, g4, gd, gt, g5, g6⟩ := hst
    obtain ⟨rfl, rfl, rfl, rfl, rfl, rfl, rfl, rfl, rfl, rfl⟩ :=
      described_inv h1 h2 h3 h4 hl g4
    rw [ht] at gt
    cases gt
  | _ => simp_all [Loaded]

/-- C3. Let the input checks pass, the session and the history manager be
built, `Pull` return a history ending in `prev, cur`, and `DescribeService`
return a snapshot with exactly one deployment.  Then every call of
`SpecifyRevision` made by `execute` gets the revision of `prev`, the
second-to-last entry, and the task-definition reference of the snapshot; it
never gets the revision of `cur` when the two differ.  When the snapshot
carries a reference `ref`, that call is made, exactly once; and when it
resolves a reference `arn` and `DescribeTaskDefinition` returns the document
`td` for `arn`, `execute` reads `arn` and calls `UpdateService` exactly once,
with the snapshot and `td`.  When the snapshot carries no reference, the run
panics and hands nothing to `SpecifyRevision`. -/
theorem c3_target_is_second_to_last {σ : Type} (W : World σ) (f : rollbackCmd) (l : Logger)
    (s : σ) (sess : Session) (hm : HistoryManager) (init : List State) (prev cur : State)
    (svc : Service) (s1 s2 s3 s4 : σ)
    (hc : f.cluster ≠ "") (hs : f.serviceName ≠ "") (hr : W.getAWSRegion s ≠ "")
    (h1 : W.NewSession s = (.ok sess, s1))
    (h2 : W.NewHistoryManager f.backend f.cluster f.serviceName s1 = (.ok hm, s2))
    (h3 : W.Pull hm s2 = (.ok (init ++ [prev, cur]), s3))
    (h4 : W.DescribeService (ecsNew sess (W.getAWSRegion s)) f.cluster f.serviceName s3
      = (.ok svc, s4))
    (hd : svc.Deployments.length = 1) :
    (∀ r a res, Event.SpecifyRevision r a res ∈ (execute W f l s).trace →
      r = prev.Revision ∧ svc.TaskDefinition = some a ∧
      (cur.Revision ≠ prev.Revision → r ≠ cur.Revision)) ∧
    (∀ ref, svc.TaskDefinition = some ref →
      (execute W f l s).trace.filter Event.isSpecifyRevision
        = [.SpecifyRevision prev.Revision ref (W.SpecifyRevision prev.Revision ref)] ∧
      ∀ arn td s5, W.SpecifyRevision prev.Revision ref = .ok arn →
        W.DescribeTaskDefinition (ecsNew sess (W.getAWSRegion s)) arn s4 = (.ok td, s5) →
        Event.DescribeTaskDefinition (ecsNew sess (W.getAWSRegion s)) arn (.ok td)
          ∈ (execute W f l s).trace ∧
        (execute W f l s).trace.filter Event.isUpdateService
          = [.UpdateService (ecsNew sess (W.getAWSRegion s)) svc td
              (W.UpdateService (ecsNew sess (W.getAWSRegion s)) svc td s5).1]) ∧
    (svc.TaskDefinition = none →
      (execute W f l s).result = .panic ∧
      (execute W f l s).trace.filter Event.isSpecifyRevision = []) := by
  have hd1 : svc.Deployments.length ≤ 1 := by omega
  refine ⟨fun r a res hmem => ?_, fun ref ht => ?_, fun ht => ?_⟩
  · have hf : Event.SpecifyRevision r a res
        ∈ (execute W f l s).trace.filter Event.isSpecifyRevision :=
      List.mem_filter.2 ⟨hmem, rfl⟩
    rcases ht : svc.TaskDefinition with _ | ref
    · rw [(nil_reference_panics W f l s sess hm init prev cur svc s1 s2 s3 s4
        hc hs hr h1 h2 h3 h4 hd1 ht).2] at hf
      cases hf
    · rw [(specify_revision_of_reference W f l s sess hm init prev cur svc ref s1 s2 s3 s4
        hc hs hr h1 h2 h3 h4 hd1 ht).1] at hf
      simp only [List.mem_singleton, Event.SpecifyRevision.injEq] at hf
      obtain ⟨rfl, rfl, -⟩ := hf
      exact ⟨rfl, rfl, fun hne h => hne h.symm⟩
  · have h := specify_revision_of_reference W f l s sess hm init prev cur svc ref
      s1 s2 s3 s4 hc hs hr h1 h2 h3 h4 hd1 ht
    exact ⟨h.1, h.2.2⟩
  · exact nil_reference_panics W f l s sess hm init prev cur svc s1 s2 s3 s4
      hc hs hr h1 h2 h3 h4 hd1 ht

/-- The stored history after a run that went through to the end. -/
theorem done_log {σ : Type} {W : World σ} {f : rollbackCmd} {l : Logger} {s : σ}
    {sess : Session} {hm : HistoryManager} {init : List State} {prev cur : State}
    {svc : Service} {ref arn : String} {td : TaskDefinition} {w : List Message}
    {s1 s2 s3 s4 s5 s6 s7 s8 : σ} {log : σ → List State}
    (hA : AppendOnlyStore W f.backend f.cluster f.serviceName log)
    (hst : Started W f s sess hm init prev cur svc ref arn td s1 s2 s3 s4 s5)
    (h7 : W.UpdateService (ecsNew sess (W.getAWSRegion s)) svc td s5 = (none, s6))
    (h8 : W.WaitUpdateService (ecsNew sess (W.getAWSRegion s)) f.cluster f.serviceName l s6
      = ((w, none), s7))
    (h9 : W.PushState hm prev.Revision (pushMsg cur prev) s7 = (none, s8)) :
    log s = init ++ [prev, cur] ∧
    log s8 = init ++ [prev, cur] ++ [⟨prev.Revision, pushMsg cur prev⟩] ∧
    ∀ h2 t2, W.Pull hm s8 = (.ok h2, t2) →
      h2 = init ++ [prev, cur] ++ [⟨prev.Revision, pushMsg cur prev⟩] := by
  have e6 : log s6 = log s5 := by
    rw [← snd_of_eq h7]; exact hA.update _ _ _ _
  have e7 : log s7 = log s6 := by
    rw [← snd_of_eq h8]; exact hA.wait _ _ _ _ _
  have e8 := hA.push_appends s1 hm s2 hst.1.2.2.2.2.1 s7 _ _ s8 h9
  obtain ⟨e5, e⟩ := started_log_eq hst hA
  have e9 : log s8 = init ++ [prev, cur] ++ [⟨prev.Revision, pushMsg cur prev⟩] := by
    rw [e8, e7, e6, e5, e]
  refine ⟨e.symm, e9, fun h2 t2 hp => ?_⟩
  rw [hA.pull_reads s1 hm s2 hst.1.2.2.2.2.1 s8 h2 t2 hp, e9]

/-- Amended C4. Let every step up to and including the stabilization wait
succeed: the input checks pass, the session and the history manager are
built, `Pull` returns a history ending in `prev, cur`, the snapshot has at
most one deployment and a reference, the reference is resolved, the task
definition read, and `UpdateService` and `WaitUpdateService` return no error.
Then `execute` calls `PushState` exactly once, with the revision of `prev`
and the message "rollback: cur -> prev", and ends in the world that call
leaves.  When that call succeeds, `execute` returns `nil`, and over an
append-only store the stored history (and what a successful `Pull` then
returns) is the old history followed by that one new entry. -/
theorem c4_one_entry_appended {σ : Type} (W : World σ) (f : rollbackCmd) (l : Logger)
    (s : σ) (sess : Session) (hm : HistoryManager) (init : List State) (prev cur : State)
    (svc : Service) (ref arn : String) (td : TaskDefinition) (w : List Message)
    (s1 s2 s3 s4 s5 s6 s7 : σ)
    (hc : f.cluster ≠ "") (hs : f.serviceName ≠ "") (hr : W.getAWSRegion s ≠ "")
    (h1 : W.NewSession s = (.ok sess, s1))
    (h2 : W.NewHistoryManager f.backend f.cluster f.serviceName s1 = (.ok hm, s2))
    (h3 : W.Pull hm s2 = (.ok (init ++ [prev, cur]), s3))
    (h4 : W.DescribeService (ecsNew sess (W.getAWSRegion s)) f.cluster f.serviceName s3
      = (.ok svc, s4))
    (hd : svc.Deployments.length ≤ 1) (ht : svc.TaskDefinition = some ref)
    (h5 : W.SpecifyRevision prev.Revision ref = .ok arn)
    (h6 : W.DescribeTaskDefinition (ecsNew sess (W.getAWSRegion s)) arn s4 = (.ok td, s5))
    (h7 : W.UpdateService (ecsNew sess (W.getAWSRegion s)) svc td s5 = (none, s6))
    (h8 : W.WaitUpdateService (ecsNew sess (W.getAWSRegion s)) f.cluster f.serviceName l s6
      = ((w, none), s7)) :
    (execute W f l s).trace.filter Event.isPushState
      = [.PushState hm prev.Revision
          ("rollback: " ++ fmtD cur.Revision ++ " -> " ++ fmtD prev.Revision)
          (W.PushState hm prev.Revision
            ("rollback: " ++ fmtD cur.Revision ++ " -> " ++ fmtD prev.Revision) s7).1] ∧
    (execute W f l s).world = (W.PushState hm prev.Revision
      ("rollback: " ++ fmtD cur.Revision ++ " -> " ++ fmtD prev.Revision) s7).2 ∧
    ((W.PushState hm prev.Revision
        ("rollback: " ++ fmtD cur.Revision ++ " -> " ++ fmtD prev.Revision) s7).1 = none →
      (execute W f l s).result = .returned none ∧
      ∀ log, AppendOnlyStore W f.backend f.cluster f.serviceName log →
        log s = init ++ [prev, cur] ∧
        log (execute W f l s).world = init ++ [prev, cur] ++ [⟨prev.Revision,
          "rollback: " ++ fmtD cur.Revision ++ " -> " ++ fmtD prev.Revision⟩] ∧
        ∀ h2 t2, W.Pull hm (execute W f l s).world = (.ok h2, t2) →
          h2 = init ++ [prev, cur] ++ [⟨prev.Revision,
            "rollback: " ++ fmtD cur.Revision ++ " -> " ++ fmtD prev.Revision⟩]) := by
  have hst := execute_steps W f l s
  generalize execute W f l s = o at hst ⊢
  cases hst with
  | deploying sess1 hm1 init1 prev1 cur1 svc1 t1 t2 t3 t4 hl g4 gd =>
    obtain ⟨rfl, rfl, rfl, rfl, rfl, rfl, rfl, rfl, rfl, rfl⟩ :=
      described_inv h1 h2 h3 h4 hl g4
    omega
  | resolveErr sess1 hm1 init1 prev1 cur1 svc1 ref1 e t1 t2 t3 t4 hl g4 gd gt g5 =>
    obtain ⟨rfl, rfl, rfl, rfl, rfl, rfl, rfl, rfl, rfl, rfl⟩ :=
      described_inv h1 h2 h3 h4 hl g4
    obtain rfl : ref1 = ref := Option.some.inj (gt.symm.trans ht)
    rw [h5] at g5
    cases g5
  | taskDefErr sess1 hm1 init1 prev1 cur1 svc1 ref1 arn1 e t1 t2 t3 t4 t5 hl g4 gd gt g5 g6 =>
    obtain ⟨rfl, rfl, rfl, rfl, rfl, rfl, rfl, rfl, rfl, rfl⟩ :=
      described_inv h1 h2 h3 h4 hl g4
    obtain rfl : ref1 = ref := Option.some.inj (gt.symm.trans ht)
    rw [h5] at g5
    cases g5
    rw [h6] at g6
    cases g6
  | updateErr sess1 hm1 init1 prev1 cur1 svc1 ref1 arn1 td1 e t1 t2 t3 t4 t5 t6 hst g7 =>
    obtain ⟨hl, g4, gd, gt, g5, g6⟩ := hst
    obtain ⟨rfl, rfl, rfl, rfl, rfl, rfl, rfl, rfl, rfl, rfl⟩ :=
      described_inv h1 h2 h3 h4 hl g4
    obtain rfl : ref1 = ref := Option.some.inj (gt.symm.trans ht)
    rw [h5] at g5
    cases g5
    rw [h6] at g6
    cases g6
    rw [h7] at g7
    cases g7
  | waitErr sess1 hm1 init1 prev1 cur1 svc1 ref1 arn1 td1 e w1 t1 t2 t3 t4 t5 t6 t7 hst g7 g8 =>
    obtain ⟨hl, g4, gd, gt, g5, g6⟩ := hst
    obtain ⟨rfl, rfl, rfl, rfl, rfl, rfl, rfl, rfl, rfl, rfl⟩ :=
      described_inv h1 h2 h3 h4 hl g4
    obtain rfl : ref1 = ref := Option.some.inj (gt.symm.trans ht)
    rw [h5] at g5
    cases g5
    rw [h6] at g6
    cases g6
    rw [h7] at g7
    cases g7
    rw [h8] at g8
    cases g8
  | pushErr sess1 hm1 init1 prev1 cur1 svc1 ref1 arn1 td1 e w1 t1 t2 t3 t4 t5 t6 t7 t8 hst
      g7 g8 g9 =>
    obtain ⟨hl, g4, gd, gt, g5, g6⟩ := hst
    obtain ⟨rfl, rfl, rfl, rfl, rfl, rfl, rfl, rfl, rfl, rfl⟩ :=
      described_inv h1 h2 h3 h4 hl g4
    obtain rfl : ref1 = ref := Option.some.inj (gt.symm.trans ht)
    rw [h5] at g5
    cases g5
    rw [h6] at g6
    cases g6
    rw [h7] at g7
    cases g7
    rw [h8] at g8
    cases g8
    have g9a : W.PushState hm1 prev1.Revision
        ("rollback: " ++ fmtD cur1.Revision ++ " -> " ++ fmtD prev1.Revision) s7
        = (some e, t8) := g9
    simp [trStarted, trLoaded, List.filter_cons, Event.isPushState, pushMsg, g9a]
  | done sess1 hm1 init1 prev1 cur1 svc1 ref1 arn1 td1 w1 t1 t2 t3 t4 t5 t6 t7 t8 hst
      g7 g8 g9 =>
    have hst1 := hst
    obtain ⟨hl, g4, gd, gt, g5, g6⟩ := hst
    obtain ⟨rfl, rfl, rfl, rfl, rfl, rfl, rfl, rfl, rfl, rfl⟩ :=
      described_inv h1 h2 h3 h4 hl g4
    obtain rfl : ref1 = ref := Option.some.inj (gt.symm.trans ht)
    rw [h5] at g5
    cases g5
    rw [h6] at g6
    cases g6
    rw [h7] at g7
    cases g7
    rw [h8] at g8
    cases g8
    have g9a : W.PushState hm1 prev1.Revision
        ("rollback: " ++ fmtD cur1.Revision ++ " -> " ++ fmtD prev1.Revision) s7
        = (none, t8) := g9
    refine ⟨by simp [trStarted, trLoaded, List.filter_cons, Event.isPushState, pushMsg, g9a],
      by simp [g9a], fun _ => ⟨rfl, fun log hA => ?_⟩⟩
    exact done_log hA hst1 h7 h8 g9
  | _ => simp_all [Loaded]

/-- C5. When the stabilization wait returned an error, `execute` returns that
error; `UpdateService` was called exactly once, with success, and no further
update is issued; `PushState` is not called, and over an append-only store the
stored history is the one it was before the run. -/
theorem c5_wait_failure_not_reverted {σ : Type} (W : World σ) (f : rollbackCmd)
    (l : Logger) (s : σ) (c : Client) (cl sv : String) (l1 : Logger) (w : List Message)
    (e : String)
    (hw : Event.WaitUpdateService c cl sv l1 w (some e) ∈ (execute W f l s).trace) :
    (execute W f l s).result = .returned (some (.collaborator e)) ∧
    (∃ svc td, (execute W f l s).trace.filter Event.isUpdateService
      = [.UpdateService c svc td none]) ∧
    (∀ ev ∈ (execute W f l s).trace, ev.isPushState = false) ∧
    (∀ log, AppendOnlyStore W f.backend f.cluster f.serviceName log →
      log (execute W f l s).world = log s) := by
  have key : (execute W f l s).result = .returned (some (.collaborator e)) ∧
      (∃ svc td, (execute W f l s).trace.filter Event.isUpdateService
        = [.UpdateService c svc td none]) ∧
      (∀ ev ∈ (execute W f l s).trace, ev.isPushState = false) := by
    have hst := execute_steps W f l s
    generalize execute W f l s = o at hst hw ⊢
    cases hst <;>
      simp_all [trLoaded, trStarted, Started, Loaded, Event.isUpdateService,
        Event.isPushState, List.filter_cons]
  exact ⟨key.1, key.2.1, key.2.2, fun log hA => (execute_log W f l s log hA).1 key.2.2⟩

/-- C6. When `UpdateService` returned an error, `execute` returns that error;
neither the stabilization wait nor `PushState` is called, and over an
append-only store the stored history, hence its length, is the one it was
before the run. -/
theorem c6_update_failure_no_append {σ : Type} (W : World σ) (f : rollbackCmd)
    (l : Logger) (s : σ) (c : Client) (svc : Service) (td : TaskDefinition) (e : String)
    (hu : Event.UpdateService c svc td (some e) ∈ (execute W f l s).trace) :
    (execute W f l s).result = .returned (some (.collaborator e)) ∧
    (∀ ev ∈ (execute W f l s).trace,
      ev.isPushState = false ∧ ev.isWaitUpdateService = false) ∧
    (∀ log, AppendOnlyStore W f.backend f.cluster f.serviceName log →
      log (execute W f l s).world = log s ∧
      (log (execute W f l s).world).length = (log s).length) := by
  have key : (execute W f l s).result = .returned (some (.collaborator e)) ∧
      (∀ ev ∈ (execute W f l s).trace,
        ev.isPushState = false ∧ ev.isWaitUpdateService = false) := by
    have hst := execute_steps W f l s
    generalize execute W f l s = o at hst hu ⊢
    cases hst <;>
      simp_all [trLoaded, trStarted, Started, Loaded, Event.isWaitUpdateService,
        Event.isPushState]
  refine ⟨key.1, key.2, fun log hA => ?_⟩
  have h := (execute_log W f l s log hA).1 fun ev hev => (key.2 ev hev).1
  exact ⟨h, by rw [h]⟩

/-- C7. When the cluster is empty, the service name is empty or the region
read from the environment is empty, `execute` fails having made no call at
all (no session, no history manager, no `Pull`, no orchestrator call) and
leaves the world as it was.  The error is InvalidArgument when the cluster or
the service name is empty, and ConfigurationMissing when both are non-empty
and the region is empty. -/
theorem c7_input_checks_before_any_call {σ : Type} (W : World σ) (f : rollbackCmd)
    (l : Logger) (s : σ)
    (h : f.cluster = "" ∨ f.serviceName = "" ∨ W.getAWSRegion s = "") :
    (execute W f l s).trace = [] ∧ (execute W f l s).world = s ∧
    (∃ e, (execute W f l s).result = .returned (some e)) ∧
    (f.cluster = "" →
      (execute W f l s).result = .returned (some (.errorsNew "--cluster is required"))) ∧
    (f.cluster ≠ "" → f.serviceName = "" →
      (execute W f l s).result
        = .returned (some (.errorsNew "--service-name is required"))) ∧
    (f.cluster = "" ∨ f.serviceName = "" →
      ∃ e, (execute W f l s).result = .returned (some e) ∧ InvalidArgument e) ∧
    (f.cluster ≠ "" → f.serviceName ≠ "" →
      (execute W f l s).result = .returned (some ConfigurationMissing)) := by
  unfold execute
  by_cases hc : f.cluster = ""
  · simp [hc, InvalidArgument]
  by_cases hs : f.serviceName = ""
  · simp [hc, hs, InvalidArgument]
  have hr : W.getAWSRegion s = "" := by simpa [hc, hs] using h
  simp [hc, hs, hr, ConfigurationMissing]

/-- The text of the DeploymentInProgress error ends in `g`, that of NoHistory
in `e`: the two errors differ for every service name. -/
theorem deploying_ne_noHistory (sv : String) :
    Error.errorsNew (sv ++ " is currently deploying") ≠ NoHistory := by
  intro h
  have h1 : sv ++ " is currently deploying" = "can not found a prev state" := by
    simpa [NoHistory] using h
  have h2 := congrArg (fun x : String => x.data.getLast?) h1
  simp only [String.data_append] at h2
  simp [List.getLast?_append] at h2

/-- With at least two stored entries a run does not return NoHistory. -/
theorem execute_ne_noHistory {σ : Type} (W : World σ) (f : rollbackCmd) (l : Logger)
    (s : σ) (log : σ → List State)
    (hA : AppendOnlyStore W f.backend f.cluster f.serviceName log)
    (h2 : 2 ≤ (log s).length) :
    (execute W f l s).result ≠ .returned (some NoHistory) := by
  have hst := execute_steps W f l s
  generalize execute W f l s = o at hst ⊢
  cases hst with
  | noHistory sess hm states s1 s2 s3 hc hs hr h1 h2 h3 hl =>
    have e1 : log s1 = log s := by
      rw [← snd_of_eq h1]; exact hA.session _
    have e2 : log s2 = log s1 := by
      rw [← snd_of_eq h2]; exact hA.manager _
    have e4 := hA.pull_reads s1 hm s2 h2 s2 _ s3 h3
    rw [e4, e2, e1] at hl
    omega
  | deploying sess hm init prev cur svc s1 s2 s3 s4 hl h4 hd =>
    simpa using deploying_ne_noHistory f.serviceName
  | _ => simp [NoHistory]

/-- After one rollback the roles of the two revisions are exchanged. -/
theorem nthRollback_step (a b : Int) (k : Nat) :
    nthRollback a b (k + 1 + 1) = nthRollback b a (k + 1) := by
  unfold nthRollback
  rcases Nat.mod_two_eq_zero_or_one k with h | h
  · have h1 : (k + 1 + 1) % 2 ≠ 1 := by omega
    have h2 : (k + 1) % 2 = 1 := by omega
    simp [h1, h2]
  · have h1 : (k + 1 + 1) % 2 = 1 := by omega
    have h2 : (k + 1) % 2 ≠ 1 := by omega
    simp [h1, h2]

/-- Unfolding of `allSucceed` at a successor. -/
theorem allSucceed_succ {σ : Type} (W : World σ) (f : rollbackCmd) (l : Logger) (n : Nat)
    (s : σ) :
    allSucceed W f l (n + 1) s = true ↔
      (execute W f l s).result = .returned none ∧
        allSucceed W f l n (execute W f l s).world = true := by
  simp [allSucceed]

/-- The stored history after `n` successful rollbacks in a row. -/
theorem log_worldAfter {σ : Type} (W : World σ) (f : rollbackCmd) (l : Logger)
    (log : σ → List State)
    (hA : AppendOnlyStore W f.backend f.cluster f.serviceName log) (n : Nat) :
    ∀ (s : σ) (init : List State) (p q : State), log s = init ++ [p, q] →
      allSucceed W f l n s = true →
      log (worldAfter W f l n s) = init ++ [p, q] ++
        (List.range n).map (fun k => nthRollback p.Revision q.Revision (k + 1)) := by
  induction n with
  | zero => intro s init p q h0 _; simpa [worldAfter] using h0
  | succ n ih =>
    intro s init p q h0 hs
    obtain ⟨h1, h2⟩ := (allSucceed_succ W f l n s).1 hs
    obtain ⟨init1, prev, cur, e1, e2⟩ := (execute_log W f l s log hA).2 h1
    obtain ⟨rfl, rfl, rfl⟩ := (two_last_inj _ _ _ _ _ _).1 (e1.symm.trans h0)
    have e3 : log (execute W f l s).world
        = (init1 ++ [prev]) ++ [cur, ⟨prev.Revision, pushMsg cur prev⟩] := by
      rw [e2, e1]; simp
    have e4 := ih (execute W f l s).world (init1 ++ [prev]) cur
      ⟨prev.Revision, pushMsg cur prev⟩ e3 h2
    simp only [worldAfter, e4, List.range_succ_eq_map, List.map_cons, List.map_map]
    have e5 : nthRollback prev.Revision cur.Revision (0 + 1)
        = ⟨prev.Revision, pushMsg cur prev⟩ := by
      simp [nthRollback, pushMsg]
    have e6 : ((fun k => nthRollback prev.Revision cur.Revision (k + 1)) ∘ Nat.succ)
        = fun k => nthRollback cur.Revision prev.Revision (k + 1) := by
      funext k
      exact nthRollback_step prev.Revision cur.Revision k
    rw [e5, e6]
    simp

/-- C9. Over an append-only store whose log ends in entries `p` then `q`,
after `n` rollbacks in a row that all succeeded the log is the old one followed
by `n` new entries, the `k`-th of them (counting from 1) going back to the
revision of `p` for odd `k` and to the revision of `q` for even `k`; the log
grew by one entry per rollback; and the next rollback does not return
NoHistory. -/
theorem c9_rollbacks_alternate {σ : Type} (W : World σ) (f : rollbackCmd) (l : Logger)
    (log : σ → List State) (s : σ) (init : List State) (p q : State) (n : Nat)
    (hA : AppendOnlyStore W f.backend f.cluster f.serviceName log)
    (h0 : log s = init ++ [p, q])
    (hs : allSucceed W f l n s = true) :
    log (worldAfter W f l n s) = init ++ [p, q] ++
      (List.range n).map (fun k => nthRollback p.Revision q.Revision (k + 1)) ∧
    (log (worldAfter W f l n s)).length = (log s).length + n ∧
    (execute W f l (worldAfter W f l n s)).result ≠ .returned (some NoHistory) := by
  have h1 := log_worldAfter W f l log hA n s init p q h0 hs
  have h2 : (log (worldAfter W f l n s)).length = (log s).length + n := by
    rw [h1, h0]; simp; omega
  refine ⟨h1, h2, execute_ne_noHistory W f l _ log hA ?_⟩
  rw [h2, h0]; simp; omega

/-- On an error of `execute` the `RunE` closure adds the failure notification
and returns the same error. -/
theorem RunE_of_error {σ : Type} (W : World σ) (f : rollbackCmd) (s : σ) (e : Error)
    (he : (execute W f (NewLogger f.cluster f.serviceName f.slackWebhookUrl) s).result
      = .returned (some e)) :
    RunE W f s = ⟨.returned (some e),
      (execute W f (NewLogger f.cluster f.serviceName f.slackWebhookUrl) s).trace
        ++ [.Log (failMsg f), .Slack "danger" (failMsg f)],
      (execute W f (NewLogger f.cluster f.serviceName f.slackWebhookUrl) s).world⟩ := by
  simp only [RunE, he]

/-- The `RunE` closure returns an error only when `execute` returned it. -/
theorem RunE_error {σ : Type} (W : World σ) (f : rollbackCmd) (s : σ) (e : Error)
    (hf : (RunE W f s).result = .returned (some e)) :
    (execute W f (NewLogger f.cluster f.serviceName f.slackWebhookUrl) s).result
      = .returned (some e) := by
  simp only [RunE] at hf
  generalize (execute W f (NewLogger f.cluster f.serviceName f.slackWebhookUrl) s).result = r
    at hf ⊢
  cases r with
  | returned err => cases err <;> simp_all
  | panic => simp_all

/-- Amended C8. A failing invocation returns the error of `execute` unchanged
and its calls are those of `execute` followed by one failure notification: a
log line and a "danger" chat message with the same text, which names the
cluster and the service.  They are the only messages of the invocation when
`execute` failed without calling `UpdateService`.  Otherwise the one `Pull` of
the run returned a history ending in `prev, cur` and the start notification
"rollback: revision cur -> prev" (log line and "normal" chat message) comes
first; after a successful update it is followed by the "service updating" log
line and by what `WaitUpdateService` wrote through the logger. -/
theorem c8_failure_notification_last {σ : Type} (W : World σ) (f : rollbackCmd) (s : σ)
    (e : Error) (hf : (RunE W f s).result = .returned (some e)) :
    (execute W f (NewLogger f.cluster f.serviceName f.slackWebhookUrl) s).result
      = .returned (some e) ∧
    (RunE W f s).world
      = (execute W f (NewLogger f.cluster f.serviceName f.slackWebhookUrl) s).world ∧
    (RunE W f s).trace
      = (execute W f (NewLogger f.cluster f.serviceName f.slackWebhookUrl) s).trace
        ++ [.Log (failMsg f), .Slack "danger" (failMsg f)] ∧
    failMsg f = "failed to deploy. cluster: " ++ f.cluster ++ ", serviceName: "
      ++ f.serviceName ++ "\n" ∧
    (((∀ ev ∈ (execute W f (NewLogger f.cluster f.serviceName f.slackWebhookUrl) s).trace,
          ev.isUpdateService = false) ∧
        messages (RunE W f s).trace = [.log (failMsg f), .slack "danger" (failMsg f)]) ∨
      ∃ hm init prev cur c svc td,
        (execute W f (NewLogger f.cluster f.serviceName f.slackWebhookUrl) s).trace.filter
            Event.isPull
          = [.Pull hm (.ok (init ++ [prev, cur]))] ∧
        ((∃ e1, Event.UpdateService c svc td (some e1)
              ∈ (execute W f (NewLogger f.cluster f.serviceName f.slackWebhookUrl) s).trace ∧
            messages (RunE W f s).trace
              = [.log ("rollback: revision " ++ fmtD cur.Revision ++ " -> "
                    ++ fmtD prev.Revision ++ "\n"),
                  .slack "normal" ("rollback: revision " ++ fmtD cur.Revision ++ " -> "
                    ++ fmtD prev.Revision ++ "\n"),
                  .log (failMsg f), .slack "danger" (failMsg f)]) ∨
          (∃ cl sv l1 w r, Event.UpdateService c svc td none
              ∈ (execute W f (NewLogger f.cluster f.serviceName f.slackWebhookUrl) s).trace ∧
            Event.WaitUpdateService c cl sv l1 w r
              ∈ (execute W f (NewLogger f.cluster f.serviceName f.slackWebhookUrl) s).trace ∧
            messages (RunE W f s).trace
              = [.log ("rollback: revision " ++ fmtD cur.Revision ++ " -> "
                    ++ fmtD prev.Revision ++ "\n"),
                  .slack "normal" ("rollback: revision " ++ fmtD cur.Revision ++ " -> "
                    ++ fmtD prev.Revision ++ "\n"),
                  .log "service updating\n"] ++ w
                ++ [.log (failMsg f), .slack "danger" (failMsg f)]))) := by
  have he := RunE_error W f s e hf
  rw [RunE_of_error W f s e he]
  have hst := execute_steps W f (NewLogger f.cluster f.serviceName f.slackWebhookUrl) s
  generalize execute W f (NewLogger f.cluster f.serviceName f.slackWebhookUrl) s = o
    at hst he ⊢
  cases hst <;>
    simp_all [trLoaded, trStarted, messages, messages_append, Event.written,
      Event.isUpdateService, Event.isPull, List.filter_cons, failMsg, startMsg]
  all_goals exact ⟨_, _, _, _, ⟨rfl, rfl⟩, rfl⟩

/-- A text that starts with another first character than `c` differs from
`c`, whatever follows. -/
theorem append_ne_of_head (a b c : String)
    (h : (a.data ++ b.data).head? ≠ c.data.head?) : a ++ b ≠ c := by
  intro e
  apply h
  rw [← String.data_append, e]

/-- Amended C10. When `PushState` returned an error, `execute` and the
invocation return that error unchanged (no other error value is built for
this step).  The one `Pull` of the run returned a history ending in
`prev, cur` and the failed call was the one for the revision of `prev`; `UpdateService` was called exactly
once, with success, and the stabilization wait had succeeded.  No success
message is sent, and the messages of the invocation are the start
notification, the "service updating" log line, what `WaitUpdateService`
wrote through the logger, and the failure notification "failed to deploy"
that ends every failing invocation. -/
theorem c10_push_failure_reported_as_failure {σ : Type} (W : World σ) (f : rollbackCmd)
    (s : σ) (hm : HistoryManager) (r : Int) (m e : String)
    (hp : Event.PushState hm r m (some e)
      ∈ (execute W f (NewLogger f.cluster f.serviceName f.slackWebhookUrl) s).trace) :
    (execute W f (NewLogger f.cluster f.serviceName f.slackWebhookUrl) s).result
      = .returned (some (.collaborator e)) ∧
    (RunE W f s).result = .returned (some (.collaborator e)) ∧
    Event.Log "successfully updated\n" ∉ (RunE W f s).trace ∧
    Event.Slack "good" "successfully updated\n" ∉ (RunE W f s).trace ∧
    ∃ init prev cur c svc td w,
      (RunE W f s).trace.filter Event.isPull = [.Pull hm (.ok (init ++ [prev, cur]))] ∧
      r = prev.Revision ∧
      m = "rollback: " ++ fmtD cur.Revision ++ " -> " ++ fmtD prev.Revision ∧
      (RunE W f s).trace.filter Event.isUpdateService = [.UpdateService c svc td none] ∧
      Event.WaitUpdateService c f.cluster f.serviceName
        (NewLogger f.cluster f.serviceName f.slackWebhookUrl) w none ∈ (RunE W f s).trace ∧
      messages (RunE W f s).trace
        = [.log ("rollback: revision " ++ fmtD cur.Revision ++ " -> "
              ++ fmtD prev.Revision ++ "\n"),
            .slack "normal" ("rollback: revision " ++ fmtD cur.Revision ++ " -> "
              ++ fmtD prev.Revision ++ "\n"),
            .log "service updating\n"] ++ w
          ++ [.log (failMsg f), .slack "danger" (failMsg f)] := by
  have he : (execute W f (NewLogger f.cluster f.serviceName f.slackWebhookUrl) s).result
      = .returned (some (.collaborator e)) := by
    have hst := execute_steps W f (NewLogger f.cluster f.serviceName f.slackWebhookUrl) s
    generalize execute W f (NewLogger f.cluster f.serviceName f.slackWebhookUrl) s = o
      at hst hp ⊢
    cases hst <;> simp_all [trLoaded, trStarted]
  rw [RunE_of_error W f s _ he]
  have hst := execute_steps W f (NewLogger f.cluster f.serviceName f.slackWebhookUrl) s
  generalize execute W f (NewLogger f.cluster f.serviceName f.slackWebhookUrl) s = o
    at hst hp he ⊢
  have n1 : ∀ x y z u : String,
      "rollback: revision " ++ x ++ y ++ z ++ u ≠ "successfully updated\n" := by
    intro x y z u
    rw [String.append_assoc, String.append_assoc, String.append_assoc]
    exact append_ne_of_head _ _ _ (by simp [String.data_append])
  have n2 : failMsg f ≠ "successfully updated\n" := by
    unfold failMsg
    rw [String.append_assoc, String.append_assoc, String.append_assoc]
    exact append_ne_of_head _ _ _ (by simp [String.data_append])
  cases hst <;>
    simp_all [trLoaded, trStarted, messages, messages_append, Event.written,
      Event.isUpdateService, Event.isPull, List.filter_cons, startMsg, pushMsg]
  exact ⟨⟨fun h => n1 _ _ _ _ h.symm, fun h => n2 h.symm⟩, _, _, _, rfl, rfl, rfl, rfl⟩

/-- The reference world keeps an append-only store: its state is the log. -/
theorem memWorld_store (c : Script) (backend cluster serviceName : String) :
    AppendOnlyStore (memWorld c) backend cluster serviceName id := by
  constructor
  · intro s; rfl
  · intro s; rfl
  · intro hm s
    simp only [memWorld]
    cases c.pullErr <;> rfl
  · intro s hm s1 _ t h t1 hp
    simp only [memWorld] at hp
    cases hpe : c.pullErr <;> simp [hpe] at hp
    exact hp.1.symm
  · intro s hm s1 _ t r m t1 hp
    simp only [memWorld] at hp
    cases hpe : c.push <;> simp [hpe] at hp
    exact hp.symm
  · intro c1 cl sv s; rfl
  · intro c1 arn s; rfl
  · intro c1 svc td s; rfl
  · intro c1 cl sv l s; rfl

/-- The sample snapshot without a reference: the run panics right after
`DescribeService`. -/
theorem nil_reference_panics_sample :
    (execute (memWorld nilReferenceScript) sampleCmd sampleLogger twoEntries).result = .panic ∧
    (execute (memWorld nilReferenceScript) sampleCmd sampleLogger twoEntries).trace
      = [.NewSession (.ok ⟨"sess"⟩), .NewHistoryManager "SSM" "prod" "web" (.ok ⟨"SSM"⟩),
        .Pull ⟨"SSM"⟩ (.ok twoEntries),
        .DescribeService sampleClient "prod" "web" (.ok ⟨none, ["d1"]⟩)] := by
  decide

/-- C1 on the history of one entry: NoHistory, and the log is unchanged. -/
theorem c1_short_history_fails_witness :
    Event.Pull ⟨"SSM"⟩ (.ok oneEntry)
      ∈ (execute (memWorld okScript) sampleCmd sampleLogger oneEntry).trace ∧
    oneEntry.length < 2 ∧
    (execute (memWorld okScript) sampleCmd sampleLogger oneEntry).result
      = .returned (some NoHistory) ∧
    (execute (memWorld okScript) sampleCmd sampleLogger oneEntry).world = oneEntry :=
  have h := c1_short_history_fails (memWorld okScript) sampleCmd sampleLogger oneEntry
    ⟨"SSM"⟩ oneEntry (by decide) (by decide) (by decide) (by decide) (by decide)
  ⟨by decide, by decide, h.1, h.2.2.2 id (memWorld_store okScript "SSM" "prod" "web")⟩

/-- C2 on a snapshot with two deployments. -/
theorem c2_deployment_in_progress_witness :
    Event.DescribeService sampleClient "prod" "web" (.ok ⟨some "app:7", ["d1", "d2"]⟩)
      ∈ (execute (memWorld deployingScript) sampleCmd sampleLogger twoEntries).trace ∧
    (execute (memWorld deployingScript) sampleCmd sampleLogger twoEntries).result
      = .returned (some (DeploymentInProgress "web")) :=
  ⟨by decide,
    (c2_deployment_in_progress (memWorld deployingScript) sampleCmd sampleLogger twoEntries
      sampleClient "prod" "web" ⟨some "app:7", ["d1", "d2"]⟩ (by decide) (by decide)).1⟩

/-- C3 on the sample history: `SpecifyRevision` is called once, with revision
5 and `app:7`, and `UpdateService` once, with the document read for `app:5`. -/
theorem c3_target_is_second_to_last_witness :
    (execute (memWorld okScript) sampleCmd sampleLogger twoEntries).trace.filter
        Event.isSpecifyRevision
      = [.SpecifyRevision 5 "app:7" (.ok "app:5")] ∧
    (execute (memWorld okScript) sampleCmd sampleLogger twoEntries).trace.filter
        Event.isUpdateService
      = [.UpdateService sampleClient ⟨some "app:7", ["d1"]⟩ ⟨"app:5"⟩ none] :=
  have h := c3_target_is_second_to_last (memWorld okScript) sampleCmd sampleLogger twoEntries
    ⟨"sess"⟩ ⟨"SSM"⟩ [] ⟨5, "deploy"⟩ ⟨7, "deploy"⟩ ⟨some "app:7", ["d1"]⟩
    twoEntries twoEntries twoEntries twoEntries
    (by decide) (by decide) (by decide) rfl rfl rfl rfl rfl
  ⟨(h.2.1 "app:7" rfl).1.trans (by decide),
    ((h.2.1 "app:7" rfl).2 "app:5" ⟨"app:5"⟩ twoEntries (by decide) rfl).2.trans
      (by decide)⟩

/-- C4 as stated fails over an append-only store whose `PushState` fails:
every step up to and including the stabilization wait succeeds and `PushState`
is called once with revision 5 and "rollback: 7 -> 5", but the stored history,
and what `Pull` returns after the run, is still the old one, without the new
entry. -/
theorem c4_counterexample :
    AppendOnlyStore (memWorld pushFailScript) "SSM" "prod" "web" id ∧
    Event.WaitUpdateService sampleClient "prod" "web" sampleLogger [.log "waiting\n"] none
      ∈ (execute (memWorld pushFailScript) sampleCmd sampleLogger twoEntries).trace ∧
    (execute (memWorld pushFailScript) sampleCmd sampleLogger twoEntries).trace.filter
        Event.isPushState
      = [.PushState ⟨"SSM"⟩ 5 "rollback: 7 -> 5" (some "RequestError: send request failed")] ∧
    (memWorld pushFailScript).Pull ⟨"SSM"⟩
        (execute (memWorld pushFailScript) sampleCmd sampleLogger twoEntries).world
      = (.ok [⟨5, "deploy"⟩, ⟨7, "deploy"⟩], [⟨5, "deploy"⟩, ⟨7, "deploy"⟩]) ∧
    (execute (memWorld pushFailScript) sampleCmd sampleLogger twoEntries).world
      ≠ [⟨5, "deploy"⟩, ⟨7, "deploy"⟩, ⟨5, "rollback: 7 -> 5"⟩] :=
  ⟨memWorld_store pushFailScript "SSM" "prod" "web", by decide, by decide, by decide,
    by decide⟩

/-- Amended C4 on the sample history: one `PushState`, success, and the log
becomes `(5, deploy), (7, deploy), (5, rollback: 7 -> 5)`. -/
theorem c4_one_entry_appended_witness :
    (execute (memWorld okScript) sampleCmd sampleLogger twoEntries).trace.filter
        Event.isPushState
      = [.PushState ⟨"SSM"⟩ 5 "rollback: 7 -> 5" none] ∧
    (execute (memWorld okScript) sampleCmd sampleLogger twoEntries).result = .returned none ∧
    (execute (memWorld okScript) sampleCmd sampleLogger twoEntries).world
      = [⟨5, "deploy"⟩, ⟨7, "deploy"⟩, ⟨5, "rollback: 7 -> 5"⟩] :=
  have h := c4_one_entry_appended (memWorld okScript) sampleCmd sampleLogger twoEntries
    ⟨"sess"⟩ ⟨"SSM"⟩ [] ⟨5, "deploy"⟩ ⟨7, "deploy"⟩ ⟨some "app:7", ["d1"]⟩ "app:7" "app:5"
    ⟨"app:5"⟩ [] twoEntries twoEntries twoEntries twoEntries twoEntries twoEntries twoEntries
    (by decide) (by decide) (by decide) rfl rfl rfl rfl (by decide) rfl (by decide) rfl rfl
    rfl
  ⟨h.1.trans (by decide), (h.2.2 (by decide)).1,
    (((h.2.2 (by decide)).2 id (memWorld_store okScript "SSM" "prod" "web")).2.1).trans
      (by decide)⟩

/-- C5 on a failing wait: the error comes back and the log is unchanged. -/
theorem c5_wait_failure_not_reverted_witness :
    Event.WaitUpdateService sampleClient "prod" "web" sampleLogger [.log "waiting\n"]
      (some "RequestError: send request failed")
      ∈ (execute (memWorld waitFailScript) sampleCmd sampleLogger twoEntries).trace ∧
    (execute (memWorld waitFailScript) sampleCmd sampleLogger twoEntries).result
      = .returned (some (.collaborator "RequestError: send request failed")) ∧
    (execute (memWorld waitFailScript) sampleCmd sampleLogger twoEntries).world = twoEntries :=
  have h := c5_wait_failure_not_reverted (memWorld waitFailScript) sampleCmd sampleLogger
    twoEntries sampleClient "prod" "web" sampleLogger [.log "waiting\n"]
    "RequestError: send request failed" (by decide)
  ⟨by decide, h.1, h.2.2.2 id (memWorld_store waitFailScript "SSM" "prod" "web")⟩

/-- C6 on a rejected update: the error comes back and the log is unchanged. -/
theorem c6_update_failure_no_append_witness :
    Event.UpdateService sampleClient ⟨some "app:7", ["d1"]⟩ ⟨"app:5"⟩
      (some "update rejected")
      ∈ (execute (memWorld updateFailScript) sampleCmd sampleLogger twoEntries).trace ∧
    (execute (memWorld updateFailScript) sampleCmd sampleLogger twoEntries).result
      = .returned (some (.collaborator "update rejected")) ∧
    (execute (memWorld updateFailScript) sampleCmd sampleLogger twoEntries).world
      = twoEntries :=
  have h := c6_update_failure_no_append (memWorld updateFailScript) sampleCmd sampleLogger
    twoEntries sampleClient ⟨some "app:7", ["d1"]⟩ ⟨"app:5"⟩ "update rejected" (by decide)
  ⟨by decide, h.1, (h.2.2 id (memWorld_store updateFailScript "SSM" "prod" "web")).1⟩

/-- C7 with no region in the environment. -/
theorem c7_input_checks_before_any_call_witness :
    (memWorld noRegionScript).getAWSRegion twoEntries = "" ∧
    (execute (memWorld noRegionScript) sampleCmd sampleLogger twoEntries).trace = [] ∧
    (execute (memWorld noRegionScript) sampleCmd sampleLogger twoEntries).result
      = .returned (some ConfigurationMissing) :=
  have h := c7_input_checks_before_any_call (memWorld noRegionScript) sampleCmd sampleLogger
    twoEntries (Or.inr (Or.inr (by decide)))
  ⟨by decide, h.1, h.2.2.2.2.2.2 (by decide) (by decide)⟩

/-- C8 as stated fails when the update is rejected: the invocation fails and
its messages are the start notification followed by the failure
notification, not the failure notification alone. -/
theorem c8_counterexample :
    (RunE (memWorld updateFailScript) sampleCmd twoEntries).result
      = .returned (some (.collaborator "update rejected")) ∧
    messages (RunE (memWorld updateFailScript) sampleCmd twoEntries).trace
      = [.log "rollback: revision 7 -> 5\n", .slack "normal" "rollback: revision 7 -> 5\n",
        .log "failed to deploy. cluster: prod, serviceName: web\n",
        .slack "danger" "failed to deploy. cluster: prod, serviceName: web\n"] ∧
    messages (RunE (memWorld updateFailScript) sampleCmd twoEntries).trace
      ≠ [.log (failMsg sampleCmd), .slack "danger" (failMsg sampleCmd)] := by
  decide

/-- Amended C8 on the rejected update. -/
theorem c8_failure_notification_last_witness :
    (RunE (memWorld updateFailScript) sampleCmd twoEntries).result
      = .returned (some (.collaborator "update rejected")) ∧
    (RunE (memWorld updateFailScript) sampleCmd twoEntries).trace
      = (execute (memWorld updateFailScript) sampleCmd
          (NewLogger sampleCmd.cluster sampleCmd.serviceName sampleCmd.slackWebhookUrl)
          twoEntries).trace
        ++ [.Log (failMsg sampleCmd), .Slack "danger" (failMsg sampleCmd)] :=
  ⟨by decide,
    (c8_failure_notification_last (memWorld updateFailScript) sampleCmd twoEntries
      (.collaborator "update rejected") (by decide)).2.2.1⟩

/-- C9 on the sample history: three rollbacks in a row go to 5, 7, 5. -/
theorem c9_rollbacks_alternate_witness :
    allSucceed (memWorld okScript) sampleCmd sampleLogger 3 twoEntries = true ∧
    worldAfter (memWorld okScript) sampleCmd sampleLogger 3 twoEntries
      = [⟨5, "deploy"⟩, ⟨7, "deploy"⟩, ⟨5, "rollback: 7 -> 5"⟩, ⟨7, "rollback: 5 -> 7"⟩,
        ⟨5, "rollback: 7 -> 5"⟩] :=
  ⟨by decide,
    (c9_rollbacks_alternate (memWorld okScript) sampleCmd sampleLogger id twoEntries []
      ⟨5, "deploy"⟩ ⟨7, "deploy"⟩ 3 (memWorld_store okScript "SSM" "prod" "web") rfl
      (by decide)).1.trans (by decide)⟩

/-- C10 as stated fails when the history store fails after the service was
updated and became stable: the invocation returns the error of `PushState` as
it is, a value of the store and not an error built for this step, and every
message of the invocation is listed here; the last two, sent after the failure,
read "failed to deploy", and none says that the rollback succeeded at the
service level or that the history is inconsistent. -/
theorem c10_counterexample :
    Event.UpdateService sampleClient ⟨some "app:7", ["d1"]⟩ ⟨"app:5"⟩ none
      ∈ (RunE (memWorld pushFailScript) sampleCmd twoEntries).trace ∧
    Event.WaitUpdateService sampleClient "prod" "web" sampleLogger [.log "waiting\n"] none
      ∈ (RunE (memWorld pushFailScript) sampleCmd twoEntries).trace ∧
    Event.PushState ⟨"SSM"⟩ 5 "rollback: 7 -> 5" (some "RequestError: send request failed")
      ∈ (RunE (memWorld pushFailScript) sampleCmd twoEntries).trace ∧
    (RunE (memWorld pushFailScript) sampleCmd twoEntries).result
      = .returned (some (.collaborator "RequestError: send request failed")) ∧
    messages (RunE (memWorld pushFailScript) sampleCmd twoEntries).trace
      = [.log "rollback: revision 7 -> 5\n", .slack "normal" "rollback: revision 7 -> 5\n",
        .log "service updating\n", .log "waiting\n",
        .log "failed to deploy. cluster: prod, serviceName: web\n",
        .slack "danger" "failed to deploy. cluster: prod, serviceName: web\n"] := by
  decide

/-- Amended C10 on the failing store. -/
theorem c10_push_failure_reported_as_failure_witness :
    Event.PushState ⟨"SSM"⟩ 5 "rollback: 7 -> 5" (some "RequestError: send request failed")
      ∈ (execute (memWorld pushFailScript) sampleCmd
          (NewLogger sampleCmd.cluster sampleCmd.serviceName sampleCmd.slackWebhookUrl)
          twoEntries).trace ∧
    (RunE (memWorld pushFailScript) sampleCmd twoEntries).result
      = .returned (some (.collaborator "RequestError: send request failed")) :=
  ⟨by decide,
    (c10_push_failure_reported_as_failure (memWorld pushFailScript) sampleCmd twoEntries
      ⟨"SSM"⟩ 5 "rollback: 7 -> 5" "RequestError: send request failed" (by decide)).2.1⟩

end Shipctl
